import Mathlib

/-! Shallow embedding of the CardRush authoritative game engine
(src/packages/server/src/game/state.ts together with the cards module that
defines buildDeck / shuffle / canPlayCard), with theorems settling the
specification's claims.  TypeScript classes become a state record, mutation
becomes explicit state passing, thrown errors become Except, and the
Math.random-driven shuffle becomes an explicit function parameter that the
general theorems constrain (length preservation) and the concrete witnesses
instantiate with the identity permutation. -/

namespace CardRush

/-- Card colors of the shared package: "red" | "yellow" | "green" | "blue" | "wild". -/
inductive CardColor where
  | red
  | yellow
  | green
  | blue
  | wild
deriving DecidableEq

/-- Card values of the shared package: "0".."9" (as `num n`) plus the action
values "skip" | "reverse" | "draw2" | "wild" | "wild4". -/
inductive CardValue where
  | num (n : Nat)
  | skip
  | reverse
  | draw2
  | wild
  | wild4
deriving DecidableEq

/-- A playing card.  The source gives each card an opaque unique nanoid string;
we model ids as naturals (uniqueness is all the code relies on). -/
structure Card where
  id : Nat
  color : CardColor
  value : CardValue
deriving DecidableEq

/-- Power-card types of the shared package. -/
inductive PowerCardType where
  | cardRush
  | freeze
  | colorRush
  | swapHands
deriving DecidableEq

/-- A power card (opaque id plus type). -/
structure PowerCard where
  id : Nat
  type : PowerCardType
deriving DecidableEq

/-- Mirror of InternalPlayerState in state.ts. -/
structure InternalPlayerState where
  id : String
  name : String
  hand : List Card
  hasCalledUno : Bool
  connected : Bool
  powerCards : List PowerCard
  powerPoints : Nat
  hasPlayedPowerCardThisTurn : Bool
  isAwaitingPowerDraw : Bool
  pendingSkipCount : Option Nat
  frozenForTurns : Nat
deriving DecidableEq

/-- Mirror of the mutable fields of class UnoGame in state.ts.  The
roomCode and startedAt fields are omitted (no claim mentions them);
direction is an Int holding 1 or -1 exactly as in the source. -/
structure UnoGame where
  players : List InternalPlayerState
  deck : List Card
  discardPile : List Card
  powerDeck : List PowerCard
  currentPlayerIndex : Nat
  direction : Int
  drawStack : Nat
  currentColor : CardColor
  hasStarted : Bool
  winnerId : Option String
  pendingPowerDrawPlayerId : Option String
  pendingHandSyncs : List String
deriving DecidableEq

/-- DEFAULT_DRAW_COUNT = 1 in state.ts. -/
def DEFAULT_DRAW_COUNT : Nat := 1

/-- FREEZE_TURNS = 2 in state.ts. -/
def FREEZE_TURNS : Nat := 2

/-- powerCardCost = 4 in state.ts. -/
def powerCardCost : Nat := 4

/-- ACTION_CARD_POINTS lookup in state.ts: skip 1, reverse 1, draw2 2,
wild 2, wild4 3; a number value misses the record and the code falls back
to 0 via the nullish coalescing operator. -/
def actionCardPoints : CardValue → Nat
  | CardValue.skip => 1
  | CardValue.reverse => 1
  | CardValue.draw2 => 2
  | CardValue.wild => 2
  | CardValue.wild4 => 3
  | CardValue.num _ => 0

/-- canPlayCard from the cards module: the wild-color test comes first and
short-circuits everything, then the draw-stack gate, then the color/value
match against the current color and the discard top. -/
def canPlayCard (card topCard : Card) (currentColor : CardColor) (drawStack : Nat) : Bool :=
  if card.color = CardColor.wild then true
  else if drawStack > 0 then card.value == CardValue.draw2 || card.value == CardValue.wild4
  else card.color == currentColor || card.value == topCard.value

/-! ## Deck construction (cards module) -/

/-- CARD_COLORS from the shared package: the four real colors. -/
def CARD_COLORS : List CardColor :=
  [CardColor.red, CardColor.yellow, CardColor.green, CardColor.blue]

/-- NUMBER_CARD_VALUES from the shared package: "0".."9". -/
def NUMBER_CARD_VALUES : List CardValue :=
  (List.range 10).map CardValue.num

/-- ACTION_CARD_VALUES from the shared package. -/
def ACTION_CARD_VALUES : List CardValue :=
  [CardValue.skip, CardValue.reverse, CardValue.draw2, CardValue.wild, CardValue.wild4]

/-- The color/value multiset assembled by buildDeck before shuffling: per real
color one "0", two of each of "1".."9", two each of skip/reverse/draw2 (the
source filters exactly these three out of ACTION_CARD_VALUES); then four wild
and four wild4 pairs pushed in the final loop. -/
def deckCardSpecs : List (CardColor × CardValue) :=
  (CARD_COLORS.flatMap fun color =>
    (color, CardValue.num 0) ::
      (((NUMBER_CARD_VALUES.filter fun v => v ≠ CardValue.num 0).flatMap fun v =>
          [(color, v), (color, v)]) ++
        ((ACTION_CARD_VALUES.filter fun a =>
            a = CardValue.skip ∨ a = CardValue.reverse ∨ a = CardValue.draw2).flatMap fun a =>
          [(color, a), (color, a)]))) ++
    (List.range 4).flatMap fun _ =>
      [(CardColor.wild, CardValue.wild), (CardColor.wild, CardValue.wild4)]

/-- The deck before shuffling, with ids assigned in construction order (the
source draws a fresh nanoid per card; distinct naturals model that). -/
def unshuffledDeck : List Card :=
  deckCardSpecs.enum.map fun e => { id := e.1, color := e.2.1, value := e.2.2 }

/-- buildDeck: assemble the standard deck and shuffle it.  The Math.random
Fisher-Yates shuffle is abstracted as the `shuffle` parameter. -/
def buildDeck (shuffle : List Card → List Card) : List Card :=
  shuffle unshuffledDeck

/-- Modelled from the spec: buildPowerDeck is imported by state.ts from the
cards module but its implementation is not among the provided sources; the
spec says "a bag of PowerCards with fresh ids, uniform over the four types,
shuffled" and treats the power deck as inexhaustible, replenished on
exhaustion.  We build four copies of each of the four types with fresh ids
and shuffle. -/
def buildPowerDeck (shufflePower : List PowerCard → List PowerCard) : List PowerCard :=
  shufflePower <|
    (([PowerCardType.cardRush, PowerCardType.freeze,
        PowerCardType.colorRush, PowerCardType.swapHands].flatMap fun t =>
      (List.range 4).map fun _ => t).enum.map fun e => { id := e.1, type := e.2 })

/-! ## Small helpers for the state-passing embedding.
The TypeScript methods mutate a player object obtained by `find`
(first match on id) or mutate the element at a list position; these helpers
express exactly those two mutation patterns functionally. -/

/-- Array.prototype.findIndex as an Option-returning recursion (None for -1). -/
def findIndex (pr : α → Bool) : List α → Option Nat
  | [] => none
  | a :: as => if pr a then some 0 else (findIndex pr as).map fun n => n + 1

/-- Apply `f` to the first player whose id is `pid` (the object that
`this.getPlayer(pid)` aliases); leave everything else untouched. -/
def updateFirst (ps : List InternalPlayerState) (pid : String)
    (f : InternalPlayerState → InternalPlayerState) : List InternalPlayerState :=
  match ps with
  | [] => []
  | p :: rest => if p.id = pid then f p :: rest else p :: updateFirst rest pid f

/-- Apply `f` to the element at position `i` (mutation of players[i]);
out of range leaves the list unchanged. -/
def modifyIdx (ps : List α) (i : Nat) (f : α → α) : List α :=
  match ps, i with
  | [], _ => []
  | p :: rest, 0 => f p :: rest
  | p :: rest, n + 1 => p :: modifyIdx rest n f

/-- JavaScript splice(i, 0, a): insert at position i, clamped to the end. -/
def insertAt (xs : List α) : Nat → α → List α
  | 0, a => a :: xs
  | n + 1, a =>
    match xs with
    | [] => [a]
    | x :: rest => x :: insertAt rest n a

/-- pendingHandSyncs is a JS Set of player ids; adding keeps insertion order
and ignores duplicates. -/
def markHandDirty (syncs : List String) (pid : String) : List String :=
  if pid ∈ syncs then syncs else syncs ++ [pid]

/-- getPlayer: players.find(p => p.id === playerId); the source throws
"Player not found" when absent, which callers surface through Except. -/
def getPlayer? (g : UnoGame) (playerId : String) : Option InternalPlayerState :=
  g.players.find? fun p => p.id = playerId

/-- getTopCard: the back of the discard pile; empty pile throws. -/
def getTopCard? (g : UnoGame) : Option Card :=
  g.discardPile.getLast?

/-- ensureTurn: game started, acting player is current, no winner yet.
Reading `.id` of an out-of-range current player would crash the source
(a TypeError); we surface that as an error too. -/
def ensureTurn (g : UnoGame) (playerId : String) : Except String Unit :=
  if g.hasStarted = false then Except.error "Game not started"
  else
    match g.players.get? g.currentPlayerIndex with
    | none => Except.error "Current player missing"
    | some cur =>
      if cur.id ≠ playerId then Except.error "Not your turn"
      else if g.winnerId.isSome then Except.error "Game already ended"
      else Except.ok ()

/-! ## Deck replenishment and drawing -/

/-- ensureDeckSize: when the draw pile is empty, pop the discard top, shuffle
the remainder of the discard into the draw pile, keep the single top card as
the new discard; an entirely empty discard leaves everything unchanged. -/
def ensureDeckSize (shuffle : List Card → List Card) (g : UnoGame) : UnoGame :=
  if g.deck.isEmpty then
    match g.discardPile.getLast? with
    | none => g
    | some top =>
      { g with deck := shuffle g.discardPile.dropLast, discardPile := [top] }
  else g

/-- takeCards: draw up to `count` cards, replenishing before each draw and
stopping early when both piles are exhausted. -/
def takeCards (shuffle : List Card → List Card) : Nat → UnoGame → List Card × UnoGame
  | 0, g => ([], g)
  | n + 1, g =>
    let g1 := ensureDeckSize shuffle g
    match g1.deck with
    | [] => ([], g1)
    | c :: rest =>
      let res := takeCards shuffle n { g1 with deck := rest }
      (c :: res.1, res.2)

/-! ## Turn movement -/

/-- The modular index arithmetic of moveSteps: normalize the step count,
multiply by the direction, and wrap into [0, total). -/
def stepIndex (total : Nat) (dir : Int) (idx steps : Nat) : Nat :=
  let t : Int := total
  let normalized : Int := (((steps : Int) % t) + t) % t
  let offset : Int := (normalized * dir + t) % t
  ((((idx : Int) + offset + t) % t)).toNat

/-- moveSteps from state.ts. -/
def moveSteps (g : UnoGame) (steps : Nat) : UnoGame :=
  if g.players.length = 0 then g
  else
    { g with
      currentPlayerIndex :=
        stepIndex g.players.length g.direction g.currentPlayerIndex steps }

/-- prepareCurrentPlayerForTurn: reset hasCalledUno and
hasPlayedPowerCardThisTurn on the (newly) current player. -/
def prepareCurrentPlayerForTurn (g : UnoGame) : UnoGame :=
  { g with
    players :=
      modifyIdx g.players g.currentPlayerIndex fun p =>
        { p with hasCalledUno := false, hasPlayedPowerCardThisTurn := false } }

/-- First half of a frozen-resolution iteration: decrement the current
player's counter and clear their power flags. -/
def frozenDecrement (g : UnoGame) : UnoGame :=
  { g with
    players :=
      modifyIdx g.players g.currentPlayerIndex fun p =>
        { p with
          frozenForTurns := p.frozenForTurns - 1,
          isAwaitingPowerDraw := false,
          pendingSkipCount := none,
          hasPlayedPowerCardThisTurn := false } }

/-- Penalty payment inside a frozen turn: the frozen player draws the full
stack into their hand (when anything could be drawn the hand is pushed and
marked dirty). -/
def frozenPayMid (shuffle : List Card → List Card) (g : UnoGame)
    (player : InternalPlayerState) : UnoGame :=
  if (takeCards shuffle g.drawStack g).1.isEmpty then (takeCards shuffle g.drawStack g).2
  else
    { (takeCards shuffle g.drawStack g).2 with
      players :=
        modifyIdx (takeCards shuffle g.drawStack g).2.players
          (takeCards shuffle g.drawStack g).2.currentPlayerIndex fun p =>
            { p with hand := p.hand ++ (takeCards shuffle g.drawStack g).1 },
      pendingHandSyncs :=
        markHandDirty (takeCards shuffle g.drawStack g).2.pendingHandSyncs player.id }

/-- After paying the stack: clear hasCalledUno on the frozen player and zero
the stack. -/
def frozenPay (shuffle : List Card → List Card) (g : UnoGame)
    (player : InternalPlayerState) : UnoGame :=
  { frozenPayMid shuffle g player with
    players :=
      modifyIdx (frozenPayMid shuffle g player).players
        (frozenPayMid shuffle g player).currentPlayerIndex fun p =>
          { p with hasCalledUno := false },
    drawStack := 0 }

/-- The body of one frozen-resolution iteration for the current player
`player`: decrement the counter, clear the power flags, pay any active draw
stack into the hand, and zero the stack. -/
def resolveFrozenBody (shuffle : List Card → List Card) (g : UnoGame)
    (player : InternalPlayerState) : UnoGame :=
  if (frozenDecrement g).drawStack > 0 then
    frozenPay shuffle (frozenDecrement g) player
  else frozenDecrement g

/-- One pass of the frozen-resolution while loop, fuelled by the source's
safety counter: the loop throws "Unable to resolve frozen player turns" once
the counter exceeds 4 x players.length, which the fuel mirrors exactly
(advanceTurn supplies fuel 4 x N + 1). -/
def resolveFrozenGo (shuffle : List Card → List Card) :
    Nat → UnoGame → Except String UnoGame
  | 0, _ => Except.error "Unable to resolve frozen player turns"
  | fuel + 1, g =>
    if g.players.length = 0 then Except.ok g
    else
      match g.players.get? g.currentPlayerIndex with
      | none => Except.ok g
      | some player =>
        if player.frozenForTurns = 0 then Except.ok g
        else
          resolveFrozenGo shuffle fuel
            (prepareCurrentPlayerForTurn (moveSteps (resolveFrozenBody shuffle g player) 1))

/-- advanceTurn: move the cursor, prepare the new current player, then run
frozen resolution. -/
def advanceTurn (shuffle : List Card → List Card) (g : UnoGame) (skipCount : Nat) :
    Except String UnoGame :=
  if g.players.length = 0 then Except.ok g
  else
    resolveFrozenGo shuffle (g.players.length * 4 + 1)
      (prepareCurrentPlayerForTurn (moveSteps g skipCount))

/-! ## Power-meter bookkeeping -/

/-- getRequiredPowerDraws: zero when the meter is empty, otherwise the floor
of points over the cost. -/
def getRequiredPowerDraws (p : InternalPlayerState) : Nat :=
  if p.powerPoints = 0 then 0 else p.powerPoints / powerCardCost

/-- evaluatePowerDrawRequirement: when no draw is owed, clear the pending
marker (if it pointed at this player) and the player's flags; otherwise mark
the player as owing draws with the deferred skip count. -/
def evaluatePowerDrawRequirement (g : UnoGame) (playerId : String) (skipCount : Nat) :
    UnoGame × Bool :=
  match getPlayer? g playerId with
  | none => (g, false)
  | some player =>
    if getRequiredPowerDraws player = 0 then
      let g1 :=
        if g.pendingPowerDrawPlayerId = some playerId then
          { g with pendingPowerDrawPlayerId := none }
        else g
      ({ g1 with
          players :=
            updateFirst g1.players playerId fun p =>
              { p with isAwaitingPowerDraw := false, pendingSkipCount := none } },
        false)
    else
      ({ g with
          players :=
            updateFirst g.players playerId fun p =>
              { p with isAwaitingPowerDraw := true, pendingSkipCount := some skipCount },
          pendingPowerDrawPlayerId := some playerId },
        true)

/-! ## Engine operations -/

/-- Result record of playCard (optional TS fields become Option/Bool). -/
structure PlayCardResult where
  penaltyApplied : Bool
  winnerId : Option String
  powerDrawRequired : Bool
deriving DecidableEq

/-- draw from state.ts: penalty-draw the full stack (or a single card), push
onto the hand, clear hasCalledUno and pendingSkipCount, mark the hand dirty,
zero the stack after a penalty, then advance by one step. -/
def draw (shuffle : List Card → List Card) (g : UnoGame) (playerId : String) :
    Except String UnoGame :=
  match ensureTurn g playerId with
  | Except.error e => Except.error e
  | Except.ok _ =>
    match getPlayer? g playerId with
    | none => Except.error "Player not found"
    | some player =>
      if player.isAwaitingPowerDraw then
        Except.error "Draw your power card before ending your turn"
      else
        let isPenaltyDraw := g.drawStack > 0
        let amount := if isPenaltyDraw then g.drawStack else DEFAULT_DRAW_COUNT
        let res := takeCards shuffle amount g
        let g1 :=
          { res.2 with
            players :=
              updateFirst res.2.players playerId fun p =>
                { p with
                  hand := p.hand ++ res.1,
                  hasCalledUno := false,
                  pendingSkipCount := none },
            pendingHandSyncs := markHandDirty res.2.pendingHandSyncs playerId }
        let g2 := if isPenaltyDraw then { g1 with drawStack := 0 } else g1
        advanceTurn shuffle g2 1

/-- The skip count chosen by playCard's effect switch: 2 for skip, 2 for
reverse in a two-player game, otherwise 1. -/
def playCardSkipCount (g : UnoGame) (card : Card) : Nat :=
  match card.value with
  | CardValue.reverse => if g.players.length = 2 then 2 else 1
  | CardValue.skip => 2
  | _ => 1

/-- The game-level effect of playCard's switch: reverse flips the direction,
draw2 and wild4 grow the draw stack, everything else changes nothing. -/
def playCardEffect (g : UnoGame) (card : Card) : UnoGame :=
  match card.value with
  | CardValue.reverse => { g with direction := if g.direction = 1 then -1 else 1 }
  | CardValue.draw2 => { g with drawStack := g.drawStack + 2 }
  | CardValue.wild4 => { g with drawStack := g.drawStack + 4 }
  | _ => g

/-- playCard stage 1: remove the card from the hand, push it on the discard,
mark the hand dirty. -/
def pcG1 (g : UnoGame) (pid : String) (player : InternalPlayerState) (card : Card)
    (cardIndex : Nat) : UnoGame :=
  { g with
    players :=
      updateFirst g.players pid fun p =>
        { p with hand := player.hand.eraseIdx cardIndex },
    discardPile := g.discardPile ++ [card],
    pendingHandSyncs := markHandDirty g.pendingHandSyncs pid }

/-- playCard stage 2: install the new current color (the resolved color
verbatim for a wild-colored card — the getD fallback mirrors the source's
non-null assertion and is unreachable past the validation). -/
def pcG2 (g : UnoGame) (pid : String) (player : InternalPlayerState) (card : Card)
    (cardIndex : Nat) (resolvedColor : Option CardColor) : UnoGame :=
  { pcG1 g pid player card cardIndex with
    currentColor :=
      if card.color = CardColor.wild then resolvedColor.getD g.currentColor
      else card.color }

/-- playCard stage 3: apply the effect switch. -/
def pcG3 (g : UnoGame) (pid : String) (player : InternalPlayerState) (card : Card)
    (cardIndex : Nat) (resolvedColor : Option CardColor) : UnoGame :=
  playCardEffect (pcG2 g pid player card cardIndex resolvedColor) card

/-- playCard stage 4: set hasCalledUno from the post-removal hand size. -/
def pcG4 (g : UnoGame) (pid : String) (player : InternalPlayerState) (card : Card)
    (cardIndex : Nat) (resolvedColor : Option CardColor) : UnoGame :=
  { pcG3 g pid player card cardIndex resolvedColor with
    players :=
      updateFirst (pcG3 g pid player card cardIndex resolvedColor).players pid fun p =>
        { p with hasCalledUno := (player.hand.eraseIdx cardIndex).length == 1 } }

/-- playCard stage 5: award the action-card power points. -/
def pcG5 (g : UnoGame) (pid : String) (player : InternalPlayerState) (card : Card)
    (cardIndex : Nat) (resolvedColor : Option CardColor) : UnoGame :=
  if actionCardPoints card.value > 0 then
    { pcG4 g pid player card cardIndex resolvedColor with
      players :=
        updateFirst (pcG4 g pid player card cardIndex resolvedColor).players pid fun p =>
          { p with powerPoints := p.powerPoints + actionCardPoints card.value } }
  else pcG4 g pid player card cardIndex resolvedColor

/-- playCard from state.ts: validate, remove the card from the hand, push it
on the discard, resolve the color and the effect switch, set hasCalledUno,
check the win, award power points, evaluate the power-draw requirement, and
finally advance the turn.  The chosen color is installed verbatim when the
played card's color is wild (the source only checks that SOME color was
supplied).  The mutation chain is split into the pcG1..pcG5 stages above. -/
def playCard (shuffle : List Card → List Card) (g : UnoGame) (playerId : String)
    (cardId : Nat) (chosenColor : Option CardColor) :
    Except String (UnoGame × PlayCardResult) :=
  match ensureTurn g playerId with
  | Except.error e => Except.error e
  | Except.ok _ =>
    match getPlayer? g playerId with
    | none => Except.error "Player not found"
    | some player =>
      if player.isAwaitingPowerDraw then
        Except.error "Draw your power card before playing another card"
      else
        match findIndex (fun c => c.id = cardId) player.hand with
        | none => Except.error "Card not found in hand"
        | some cardIndex =>
          match player.hand.get? cardIndex with
          | none => Except.error "Card not found in hand"
          | some card =>
            match getTopCard? g with
            | none => Except.error "Discard pile empty"
            | some topCard =>
              if card.color = CardColor.wild ∧
                  (if card.color = CardColor.wild then chosenColor
                    else some card.color) = none then
                Except.error "Wild cards require a chosen color"
              else if canPlayCard card topCard g.currentColor g.drawStack = false then
                Except.error "Card cannot be played"
              else
                if (player.hand.eraseIdx cardIndex).length = 0 then
                  Except.ok
                    ({ pcG4 g playerId player card cardIndex
                        (if card.color = CardColor.wild then chosenColor
                          else some card.color) with
                        winnerId := some playerId },
                      { penaltyApplied := false, winnerId := some playerId,
                        powerDrawRequired := false })
                else
                  if (evaluatePowerDrawRequirement
                      (pcG5 g playerId player card cardIndex
                        (if card.color = CardColor.wild then chosenColor
                          else some card.color))
                      playerId
                      (playCardSkipCount
                        (pcG2 g playerId player card cardIndex
                          (if card.color = CardColor.wild then chosenColor
                            else some card.color))
                        card)).2 then
                    Except.ok
                      ((evaluatePowerDrawRequirement
                          (pcG5 g playerId player card cardIndex
                            (if card.color = CardColor.wild then chosenColor
                              else some card.color))
                          playerId
                          (playCardSkipCount
                            (pcG2 g playerId player card cardIndex
                              (if card.color = CardColor.wild then chosenColor
                                else some card.color))
                            card)).1,
                        { penaltyApplied := false, winnerId := none,
                          powerDrawRequired := true })
                  else
                    match advanceTurn shuffle
                        (evaluatePowerDrawRequirement
                          (pcG5 g playerId player card cardIndex
                            (if card.color = CardColor.wild then chosenColor
                              else some card.color))
                          playerId
                          (playCardSkipCount
                            (pcG2 g playerId player card cardIndex
                              (if card.color = CardColor.wild then chosenColor
                                else some card.color))
                            card)).1
                        (playCardSkipCount
                          (pcG2 g playerId player card cardIndex
                            (if card.color = CardColor.wild then chosenColor
                              else some card.color))
                          card) with
                    | Except.error e => Except.error e
                    | Except.ok g6 =>
                      Except.ok
                        (g6,
                          { penaltyApplied := false, winnerId := none,
                            powerDrawRequired := false })

/-- ensurePowerDeckSize: replenish an exhausted power deck with a fresh bag. -/
def ensurePowerDeckSize (shufflePower : List PowerCard → List PowerCard) (g : UnoGame) :
    UnoGame :=
  if g.powerDeck.isEmpty then { g with powerDeck := buildPowerDeck shufflePower } else g

/-- drawPowerCard stage: pop the power card into the inventory and pay the
cost (Nat subtraction models the source's subtract-then-floor-at-zero). -/
def dpcG2 (g1 : UnoGame) (playerId : String) (card : PowerCard)
    (restDeck : List PowerCard) : UnoGame :=
  { g1 with
    powerDeck := restDeck,
    players :=
      updateFirst g1.players playerId fun p =>
        { p with
          powerCards := p.powerCards ++ [card],
          powerPoints := p.powerPoints - powerCardCost } }

/-- drawPowerCard stage: clear the awaiting flags before advancing. -/
def dpcG3 (g2 : UnoGame) (playerId : String) : UnoGame :=
  { g2 with
    players :=
      updateFirst g2.players playerId fun p =>
        { p with isAwaitingPowerDraw := false, pendingSkipCount := none },
    pendingPowerDrawPlayerId := none }

/-- drawPowerCard from state.ts: require at least one owed draw, pop a power
card (replenishing first), append it to the inventory, subtract the cost
(floored at zero, which Nat subtraction models exactly), then either keep the
player in the awaiting state or clear the flags and advance by the deferred
skip count. -/
def drawPowerCard (shuffle : List Card → List Card)
    (shufflePower : List PowerCard → List PowerCard) (g : UnoGame) (playerId : String) :
    Except String (UnoGame × PowerCard) :=
  match ensureTurn g playerId with
  | Except.error e => Except.error e
  | Except.ok _ =>
    match getPlayer? g playerId with
    | none => Except.error "Player not found"
    | some player =>
      if getRequiredPowerDraws player = 0 then
        Except.error "Not enough points to draw a power card"
      else
        match (ensurePowerDeckSize shufflePower g).powerDeck with
        | [] => Except.error "Power deck is empty"
        | card :: restDeck =>
          match getPlayer? (dpcG2 (ensurePowerDeckSize shufflePower g) playerId card restDeck)
              playerId with
          | none => Except.error "Player not found"
          | some player2 =>
            if getRequiredPowerDraws player2 > 0 then
              Except.ok
                ({ dpcG2 (ensurePowerDeckSize shufflePower g) playerId card restDeck with
                    players :=
                      updateFirst
                        (dpcG2 (ensurePowerDeckSize shufflePower g) playerId card
                          restDeck).players
                        playerId fun p => { p with isAwaitingPowerDraw := true },
                    pendingPowerDrawPlayerId := some playerId },
                  card)
            else
              match advanceTurn shuffle
                  (dpcG3 (dpcG2 (ensurePowerDeckSize shufflePower g) playerId card restDeck)
                    playerId)
                  (player2.pendingSkipCount.getD 1) with
              | Except.error e => Except.error e
              | Except.ok g4 => Except.ok (g4, card)

/-- Payload of playPowerCard ({cardId, targetPlayerId?, color?}). -/
structure PlayPowerCardPayload where
  cardId : Nat
  targetPlayerId : Option String
  color : Option CardColor
deriving DecidableEq

/-- Result record of playPowerCard. -/
structure PlayPowerCardResult where
  affectedPlayerIds : List String
deriving DecidableEq

/-- The cardRush for-loop over this.players by position: every other player
draws two cards (skipping them entirely when nothing could be drawn), gets
hasCalledUno cleared, the hand marked dirty and their id recorded. -/
def cardRushGo (shuffle : List Card → List Card) (playerId : String) :
    Nat → Nat → UnoGame → List String → UnoGame × List String
  | 0, _, g, acc => (g, acc)
  | n + 1, i, g, acc =>
    match g.players.get? i with
    | none => (g, acc)
    | some target =>
      if target.id = playerId then cardRushGo shuffle playerId n (i + 1) g acc
      else
        if (takeCards shuffle 2 g).1.isEmpty then
          cardRushGo shuffle playerId n (i + 1) (takeCards shuffle 2 g).2 acc
        else
          cardRushGo shuffle playerId n (i + 1)
            { (takeCards shuffle 2 g).2 with
              players :=
                modifyIdx (takeCards shuffle 2 g).2.players i fun p =>
                  { p with hand := p.hand ++ (takeCards shuffle 2 g).1 },
              pendingHandSyncs :=
                markHandDirty (takeCards shuffle 2 g).2.pendingHandSyncs target.id }
            (markHandDirty acc target.id)

/-- First half of swapHands: the acting player takes the target's hand. -/
def swapFirst (g : UnoGame) (playerId : String) (targetHand : List Card) : UnoGame :=
  { g with
    players :=
      updateFirst g.players playerId fun p =>
        { p with hand := targetHand, hasCalledUno := targetHand.length == 1 } }

/-- Second half of swapHands: the target takes the acting player's hand and
both hands are marked dirty. -/
def swapSecond (g1 : UnoGame) (playerId targetId : String) (playerHand : List Card) :
    UnoGame :=
  { g1 with
    players :=
      updateFirst g1.players targetId fun p =>
        { p with hand := playerHand, hasCalledUno := playerHand.length == 1 },
    pendingHandSyncs :=
      markHandDirty (markHandDirty g1.pendingHandSyncs playerId) targetId }

/-- The colorRush commit: drop every card of the chosen color from the acting
player's hand, mark it dirty, and shuffle the dropped cards into the deck. -/
def colorRushCommit (shuffle : List Card → List Card) (g : UnoGame) (playerId : String)
    (actor : InternalPlayerState) (color : CardColor) : UnoGame :=
  { g with
    players :=
      updateFirst g.players playerId fun p =>
        { p with
          hand := actor.hand.filter fun handCard => handCard.color ≠ color,
          hasCalledUno :=
            (actor.hand.filter fun handCard => handCard.color ≠ color).length == 1 },
    pendingHandSyncs := markHandDirty g.pendingHandSyncs playerId,
    deck := shuffle (g.deck ++ actor.hand.filter fun handCard => handCard.color = color) }

/-- The body of playPowerCard's try block: the effect switch on the four
power-card types.  `actor` is the acting player as read before the card was
removed from the inventory (the removal does not touch the hand, the only
field the effects read).  Every error is thrown before any state mutation,
exactly as in the source. -/
def powerCardEffect (shuffle : List Card → List Card) (g : UnoGame) (playerId : String)
    (actor : InternalPlayerState) (powerCard : PowerCard) (payload : PlayPowerCardPayload) :
    Except String (UnoGame × List String) :=
  match powerCard.type with
  | PowerCardType.cardRush =>
    Except.ok (cardRushGo shuffle playerId g.players.length 0 g [])
  | PowerCardType.freeze =>
    match payload.targetPlayerId with
    | none => Except.error "Select another player to freeze"
    | some targetId =>
      if targetId = playerId then Except.error "Select another player to freeze"
      else
        match getPlayer? g targetId with
        | none => Except.error "Player not found"
        | some _ =>
          Except.ok
            ({ g with
                players :=
                  updateFirst g.players targetId fun p =>
                    { p with frozenForTurns := p.frozenForTurns + FREEZE_TURNS } },
              [])
  | PowerCardType.colorRush =>
    match payload.color with
    | none => Except.error "Select a valid color to discard"
    | some color =>
      if color = CardColor.wild then Except.error "Select a valid color to discard"
      else if (actor.hand.any fun handCard => handCard.color = color) = false then
        Except.error "You do not have any cards of that color"
      else
        Except.ok (colorRushCommit shuffle g playerId actor color, [playerId])
  | PowerCardType.swapHands =>
    match payload.targetPlayerId with
    | none => Except.error "Select another player to swap with"
    | some targetId =>
      if targetId = playerId then Except.error "Select another player to swap with"
      else
        match getPlayer? g targetId with
        | none => Except.error "Player not found"
        | some target =>
          Except.ok
            (swapSecond (swapFirst g playerId target.hand) playerId targetId actor.hand,
              [playerId, targetId])

/-- The inventory state right after the power card's removal. -/
def ppcRemoved (g : UnoGame) (playerId : String) (cardIndex : Nat) : UnoGame :=
  { g with
    players :=
      updateFirst g.players playerId fun p =>
        { p with powerCards := p.powerCards.eraseIdx cardIndex } }

/-- The catch block's restore: re-insert the removed card at its original
inventory position. -/
def ppcRestored (gRemoved : UnoGame) (playerId : String) (cardIndex : Nat)
    (powerCard : PowerCard) : UnoGame :=
  { gRemoved with
    players :=
      updateFirst gRemoved.players playerId fun p =>
        { p with powerCards := insertAt p.powerCards cardIndex powerCard } }

/-- playPowerCard from state.ts.  The returned state is the engine state after
the call even when it throws: the catch block re-inserts the removed card at
its original inventory position before rethrowing, and every throw inside the
try happens before any other mutation, so the caught state is exactly the
state right after the removal. -/
def playPowerCard (shuffle : List Card → List Card) (g : UnoGame) (playerId : String)
    (payload : PlayPowerCardPayload) : UnoGame × Except String PlayPowerCardResult :=
  match ensureTurn g playerId with
  | Except.error e => (g, Except.error e)
  | Except.ok _ =>
    match getPlayer? g playerId with
    | none => (g, Except.error "Player not found")
    | some player =>
      if player.isAwaitingPowerDraw then
        (g, Except.error "Draw your power card before playing one")
      else if player.hasPlayedPowerCardThisTurn then
        (g, Except.error "You have already played a power card this turn")
      else
        match findIndex (fun pw => pw.id = payload.cardId) player.powerCards with
        | none => (g, Except.error "Power card not found")
        | some cardIndex =>
          match player.powerCards.get? cardIndex with
          | none => (g, Except.error "Power card not found")
          | some powerCard =>
            match powerCardEffect shuffle (ppcRemoved g playerId cardIndex) playerId
                player powerCard payload with
            | Except.error e =>
              (ppcRestored (ppcRemoved g playerId cardIndex) playerId cardIndex powerCard,
                Except.error e)
            | Except.ok (g1, affected) =>
              ({ g1 with
                  players :=
                    updateFirst g1.players playerId fun p =>
                      { p with hasPlayedPowerCardThisTurn := true } },
                Except.ok { affectedPlayerIds := affected })

/-! ## start -/
/-! ## start -/

/-- The dealing for-loop of start: give each player in position order a fresh
seven-card hand and reset every per-player field. -/
def dealGo (shuffle : List Card → List Card) : Nat → Nat → UnoGame → UnoGame
  | 0, _, g => g
  | n + 1, i, g =>
    dealGo shuffle n (i + 1)
      { (takeCards shuffle 7 g).2 with
        players :=
          modifyIdx (takeCards shuffle 7 g).2.players i fun p =>
            { p with
              hand := (takeCards shuffle 7 g).1,
              hasCalledUno := false,
              powerCards := [],
              powerPoints := 0,
              hasPlayedPowerCardThisTurn := false,
              isAwaitingPowerDraw := false,
              pendingSkipCount := none,
              frozenForTurns := 0 } }

/-- The while loop of start that rotates wild cards to the bottom (with a
reshuffle) until a non-wild card surfaces.  The source loops until the random
shuffle yields a non-wild top or the deck empties ("Unable to initialize
discard pile"); with an adversarial abstract shuffle it could spin forever,
so the model bounds it by fuel and reports the same error on exhaustion —
every claim only concerns runs where the loop succeeds. -/
def firstCardGo (shuffle : List Card → List Card) :
    Nat → UnoGame → Except String (Card × UnoGame)
  | 0, _ => Except.error "Unable to initialize discard pile"
  | fuel + 1, g =>
    match g.deck with
    | [] => Except.error "Unable to initialize discard pile"
    | c :: rest =>
      if c.color = CardColor.wild then
        firstCardGo shuffle fuel { g with deck := shuffle (rest ++ [c]) }
      else Except.ok (c, { g with deck := rest })

/-- The state reset at the top of start: fresh decks, empty discard, no
pending power draw. -/
def startReset (shuffle : List Card → List Card)
    (shufflePower : List PowerCard → List PowerCard) (g : UnoGame) : UnoGame :=
  { g with
    deck := buildDeck shuffle,
    discardPile := [],
    powerDeck := buildPowerDeck shufflePower,
    pendingPowerDrawPlayerId := none }

/-- start from state.ts: build the decks, deal, surface a non-wild first
discard, and initialize the turn state. -/
def start (shuffle : List Card → List Card)
    (shufflePower : List PowerCard → List PowerCard) (g : UnoGame) :
    Except String UnoGame :=
  if g.hasStarted then Except.ok g
  else
    match firstCardGo shuffle
        ((dealGo shuffle (startReset shuffle shufflePower g).players.length 0
            (startReset shuffle shufflePower g)).deck.length + 1)
        (dealGo shuffle (startReset shuffle shufflePower g).players.length 0
          (startReset shuffle shufflePower g)) with
    | Except.error e => Except.error e
    | Except.ok (firstCard, g3) =>
      Except.ok
        (prepareCurrentPlayerForTurn
          { g3 with
            discardPile := [firstCard],
            currentColor := firstCard.color,
            direction := 1,
            drawStack := 0,
            currentPlayerIndex := 0,
            hasStarted := true })

/-- Modelled from the spec: the engine method removePlayer is invoked by
RoomService.leaveRoom but its implementation is not among the provided
sources.  Following the spec's words: remove the player from the turn order;
if the removed player was current the cursor stays at the same index (which
now points at the next player in the prior direction; the index wraps to the
start when the removed current player sat at the end); removing a player
seated before the cursor shifts the cursor down so the same player stays
current; if only one player remains they win (the winner id is also
returned); the removed player's cards are discarded — they return neither to
the deck nor to the discard pile. -/
def removePlayer (g : UnoGame) (playerId : String) : UnoGame × Option String :=
  match findIndex (fun p => p.id = playerId) g.players with
  | none => (g, none)
  | some idx =>
    let newPlayers := g.players.eraseIdx idx
    let newIndex :=
      if idx < g.currentPlayerIndex then g.currentPlayerIndex - 1
      else if g.currentPlayerIndex < newPlayers.length then g.currentPlayerIndex
      else 0
    let g1 := { g with players := newPlayers, currentPlayerIndex := newIndex }
    match newPlayers with
    | [q] => ({ g1 with winnerId := some q.id }, some q.id)
    | _ => (g1, none)

/-! ## Operation sequences (for the conservation invariant) -/

/-- Total number of Cards in all hands plus the draw pile plus the discard
pile (invariant I1's quantity; power cards are a separate economy). -/
def totalCards (g : UnoGame) : Nat :=
  (g.players.map fun p => p.hand.length).sum + g.deck.length + g.discardPile.length

/-- One client-visible engine mutation. -/
inductive EngineAction where
  | play (pid : String) (cardId : Nat) (chosen : Option CardColor)
  | drawCard (pid : String)
  | drawPower (pid : String)
  | playPower (pid : String) (payload : PlayPowerCardPayload)

/-- Apply one action, keeping only the resulting state. -/
def applyAction (shuffle : List Card → List Card)
    (shufflePower : List PowerCard → List PowerCard) (g : UnoGame) :
    EngineAction → Except String UnoGame
  | EngineAction.play pid cid ch =>
    match playCard shuffle g pid cid ch with
    | Except.error e => Except.error e
    | Except.ok res => Except.ok res.1
  | EngineAction.drawCard pid => draw shuffle g pid
  | EngineAction.drawPower pid =>
    match drawPowerCard shuffle shufflePower g pid with
    | Except.error e => Except.error e
    | Except.ok res => Except.ok res.1
  | EngineAction.playPower pid payload =>
    match playPowerCard shuffle g pid payload with
    | (g1, Except.ok _) => Except.ok g1
    | (_, Except.error e) => Except.error e

/-- Run a sequence of actions, stopping at the first failure. -/
def runActions (shuffle : List Card → List Card)
    (shufflePower : List PowerCard → List PowerCard) :
    UnoGame → List EngineAction → Except String UnoGame
  | g, [] => Except.ok g
  | g, a :: rest =>
    match applyAction shuffle shufflePower g a with
    | Except.error e => Except.error e
    | Except.ok g1 => runActions shuffle shufflePower g1 rest

/-! ## Concrete states for witnesses and counterexamples -/

/-- A fresh player with the given id and hand (all other fields as the room
service initializes them before start). -/
def mkPlayer (pid : String) (hand : List Card) : InternalPlayerState :=
  { id := pid, name := pid, hand := hand, hasCalledUno := false, connected := true,
    powerCards := [], powerPoints := 0, hasPlayedPowerCardThisTurn := false,
    isAwaitingPowerDraw := false, pendingSkipCount := none, frozenForTurns := 0 }

/-- A started two-or-more-player game with the given players, deck and
discard, player 0 to act, direction +1, no stack, current color red. -/
def mkGame (players : List InternalPlayerState) (deck discard : List Card) : UnoGame :=
  { players := players, deck := deck, discardPile := discard, powerDeck := [],
    currentPlayerIndex := 0, direction := 1, drawStack := 0,
    currentColor := CardColor.red, hasStarted := true, winnerId := none,
    pendingPowerDrawPlayerId := none, pendingHandSyncs := [] }

/-- State for C2: player A holds a wild card and a red 3. -/
def exG2 : UnoGame :=
  mkGame
    [mkPlayer "A" [⟨10, CardColor.wild, CardValue.wild⟩, ⟨11, CardColor.red, CardValue.num 3⟩],
      mkPlayer "B" [⟨12, CardColor.blue, CardValue.num 1⟩]]
    [] [⟨13, CardColor.red, CardValue.num 5⟩]
/-- State for C3: player A holds a single blue draw2; playing it wins. -/
def exG3 : UnoGame :=
  { mkGame
      [mkPlayer "A" [⟨20, CardColor.blue, CardValue.draw2⟩],
        mkPlayer "B" [⟨21, CardColor.blue, CardValue.num 1⟩]]
      [] [⟨22, CardColor.blue, CardValue.num 5⟩] with
    currentColor := CardColor.blue }
/-- State for C4: player A holds a single red card and a colorRush power
card; discarding all red cards empties the hand. -/
def exG4 : UnoGame :=
  mkGame
    [{ mkPlayer "A" [⟨30, CardColor.red, CardValue.num 3⟩] with
        powerCards := [⟨1, PowerCardType.colorRush⟩] },
      mkPlayer "B" [⟨31, CardColor.blue, CardValue.num 1⟩]]
    [] [⟨32, CardColor.red, CardValue.num 5⟩]
/-- State for C6's witness: player A holds a freeze power card but names no
target, so the play fails after the card was removed. -/
def exG6 : UnoGame :=
  mkGame
    [{ mkPlayer "A" [⟨33, CardColor.red, CardValue.num 3⟩] with
        powerCards := [⟨2, PowerCardType.freeze⟩] },
      mkPlayer "B" [⟨34, CardColor.blue, CardValue.num 1⟩]]
    [] [⟨35, CardColor.red, CardValue.num 5⟩]
/-- State for C8's witness: player A has five power points and owes a draw. -/
def exG8 : UnoGame :=
  { mkGame
      [{ mkPlayer "A" [⟨36, CardColor.red, CardValue.num 3⟩] with powerPoints := 5 },
        mkPlayer "B" [⟨37, CardColor.blue, CardValue.num 1⟩]]
      [] [⟨38, CardColor.red, CardValue.num 5⟩] with
    powerDeck := [⟨0, PowerCardType.freeze⟩] }
/-- State for C9's counterexample: the deck is empty and the discard holds
only its top card, so a draw yields zero cards instead of one. -/
def exG9 : UnoGame :=
  mkGame
    [mkPlayer "A" [⟨40, CardColor.red, CardValue.num 1⟩],
      mkPlayer "B" [⟨41, CardColor.blue, CardValue.num 1⟩]]
    [] [⟨42, CardColor.red, CardValue.num 5⟩]
/-- State for C10's counterexample: an empty deck forces cardRush to
replenish from the discard pile, which shrinks it to the top card. -/
def exG10 : UnoGame :=
  mkGame
    [{ mkPlayer "A" [⟨43, CardColor.red, CardValue.num 3⟩] with
        powerCards := [⟨3, PowerCardType.cardRush⟩] },
      mkPlayer "B" [⟨44, CardColor.blue, CardValue.num 1⟩]]
    [] [⟨50, CardColor.green, CardValue.num 2⟩, ⟨51, CardColor.red, CardValue.num 5⟩]
/-- State for C5's witness: three players with B (index 1) to act. -/
def exG5 : UnoGame :=
  { mkGame
      [mkPlayer "A" [⟨60, CardColor.red, CardValue.num 1⟩],
        mkPlayer "B" [⟨61, CardColor.blue, CardValue.num 2⟩],
        mkPlayer "C" [⟨62, CardColor.green, CardValue.num 3⟩]]
      [⟨63, CardColor.red, CardValue.num 4⟩] [⟨64, CardColor.red, CardValue.num 5⟩] with
    currentPlayerIndex := 1 }
/-- A fresh two-player room before start (as handleStart builds it). -/
def exStart : UnoGame :=
  { mkGame [mkPlayer "A" [], mkPlayer "B" []] [] [] with hasStarted := false }

/-- Extract the ok state of an engine call, with a default for the error
case (used to name concrete started states in witnesses). -/
def okD (e : Except String UnoGame) (d : UnoGame) : UnoGame :=
  match e with
  | Except.ok g => g
  | Except.error _ => d

/-- Extract the ok payload of a playCard call, with a default for the error
case (used to name concrete result states in witnesses). -/
def okP (e : Except String (UnoGame × PlayCardResult)) (d : UnoGame × PlayCardResult) :
    UnoGame × PlayCardResult :=
  match e with
  | Except.ok x => x
  | Except.error _ => d

/-- The concrete outcome of the winning draw2 play in exG3. -/
def exR3 : UnoGame × PlayCardResult :=
  okP (playCard id exG3 "A" 20 none)
    (exG3, { penaltyApplied := false, winnerId := none, powerDrawRequired := false })

/-- The started two-player game obtained from exStart with the identity
shuffles. -/
def exG7 : UnoGame := okD (start id id exStart) exStart

/-- The two possible discard-pile outcomes of an operation that may
replenish the deck: untouched, or reduced to exactly its former top card. -/
def discardRel (a b : List Card) : Prop :=
  b = a ∨ ∃ t, a.getLast? = some t ∧ b = [t]

/-! ## Theorems -/

/-- C1 counterexample: with a pending draw stack the code accepts a plain
wild card (color wild, value wild), whose value is neither draw2 nor wild4,
because the wild-color test precedes the draw-stack gate.  The claim's
draw-stack clause is therefore false on the code at this input. -/
theorem C1_counterexample :
    canPlayCard ⟨0, CardColor.wild, CardValue.wild⟩ ⟨1, CardColor.red, CardValue.draw2⟩
        CardColor.red 2 = true ∧
      ¬ (CardValue.wild = CardValue.draw2 ∨ CardValue.wild = CardValue.wild4) := by
  decide

/-- C1 (amended): when draw_stack > 0, legal iff the card's COLOR is wild or
its value is draw2 or wild4; when draw_stack = 0, legal iff the card's color
is wild, or matches the current color, or its value matches the top card. -/
theorem C1_canPlayCard (card topCard : Card) (currentColor : CardColor) (drawStack : Nat) :
    (0 < drawStack →
      (canPlayCard card topCard currentColor drawStack = true ↔
        (card.color = CardColor.wild ∨ card.value = CardValue.draw2 ∨
          card.value = CardValue.wild4))) ∧
    (drawStack = 0 →
      (canPlayCard card topCard currentColor drawStack = true ↔
        (card.color = CardColor.wild ∨ card.color = currentColor ∨
          card.value = topCard.value))) := by
  unfold canPlayCard
  constructor
  · intro h
    by_cases hw : card.color = CardColor.wild
    · simp [hw]
    · simp [hw, h]
  · intro h
    by_cases hw : card.color = CardColor.wild
    · simp [hw]
    · simp [hw, h]

/-- Witness for C1 at a concrete input: a red draw2 on a stack of 3 is legal. -/
theorem C1_canPlayCard_witness :
    canPlayCard ⟨0, CardColor.red, CardValue.draw2⟩ ⟨1, CardColor.blue, CardValue.num 5⟩
        CardColor.green 3 = true ↔
      (CardColor.red = CardColor.wild ∨ CardValue.draw2 = CardValue.draw2 ∨
        CardValue.draw2 = CardValue.wild4) :=
  (C1_canPlayCard ⟨0, CardColor.red, CardValue.draw2⟩ ⟨1, CardColor.blue, CardValue.num 5⟩
    CardColor.green 3).1 (by decide)

/-! ## List-level helper lemmas about the mutation helpers -/

theorem modifyIdx_length (ps : List α) (i : Nat) (f : α → α) :
    (modifyIdx ps i f).length = ps.length := by
  induction ps generalizing i with
  | nil => rfl
  | cons p rest ih =>
    cases i with
    | zero => rfl
    | succ n => simp [modifyIdx, ih]

theorem modifyIdx_get?_self (ps : List α) (i : Nat) (f : α → α) :
    (modifyIdx ps i f).get? i = (ps.get? i).map f := by
  induction ps generalizing i with
  | nil => simp [modifyIdx]
  | cons p rest ih =>
    cases i with
    | zero => simp [modifyIdx]
    | succ n => simpa [modifyIdx] using ih n

theorem map_modifyIdx_eq (ps : List α) (i : Nat) (f : α → α) (m : α → β)
    (h : ∀ p, m (f p) = m p) : (modifyIdx ps i f).map m = ps.map m := by
  induction ps generalizing i with
  | nil => rfl
  | cons p rest ih =>
    cases i with
    | zero => simp [modifyIdx, h]
    | succ n => simp [modifyIdx, ih]

theorem sum_map_modifyIdx (ps : List α) (i : Nat) (f : α → α) (m : α → Nat) (q : α)
    (hq : ps.get? i = some q) :
    ((modifyIdx ps i f).map m).sum + m q = (ps.map m).sum + m (f q) := by
  induction ps generalizing i with
  | nil => simp at hq
  | cons p rest ih =>
    cases i with
    | zero =>
      simp at hq
      subst hq
      simp [modifyIdx]
      ring
    | succ n =>
      simp at hq
      have := ih n (by simpa using hq)
      simp [modifyIdx]
      omega

theorem updateFirst_length (ps : List InternalPlayerState) (pid : String)
    (f : InternalPlayerState → InternalPlayerState) :
    (updateFirst ps pid f).length = ps.length := by
  induction ps with
  | nil => rfl
  | cons p rest ih =>
    by_cases h : p.id = pid <;> simp [updateFirst, h, ih]

theorem map_updateFirst_eq (ps : List InternalPlayerState) (pid : String)
    (f : InternalPlayerState → InternalPlayerState) (m : InternalPlayerState → β)
    (h : ∀ p, m (f p) = m p) : (updateFirst ps pid f).map m = ps.map m := by
  induction ps with
  | nil => rfl
  | cons p rest ih =>
    by_cases hp : p.id = pid <;> simp [updateFirst, hp, ih, h]

theorem sum_map_updateFirst (ps : List InternalPlayerState) (pid : String)
    (f : InternalPlayerState → InternalPlayerState) (m : InternalPlayerState → Nat)
    (q : InternalPlayerState) (hq : ps.find? (fun p => p.id = pid) = some q) :
    ((updateFirst ps pid f).map m).sum + m q = (ps.map m).sum + m (f q) := by
  induction ps with
  | nil => simp at hq
  | cons p rest ih =>
    by_cases hp : p.id = pid
    · simp [List.find?, hp] at hq
      subst hq
      simp [updateFirst, hp]
      ring
    · simp [List.find?, hp] at hq
      have := ih hq
      simp [updateFirst, hp]
      omega

theorem find?_updateFirst_self (ps : List InternalPlayerState) (pid : String)
    (f : InternalPlayerState → InternalPlayerState) (q : InternalPlayerState)
    (hq : ps.find? (fun p => p.id = pid) = some q) (hid : ∀ p, (f p).id = p.id) :
    (updateFirst ps pid f).find? (fun p => p.id = pid) = some (f q) := by
  induction ps with
  | nil => simp at hq
  | cons p rest ih =>
    by_cases hp : p.id = pid
    · simp [List.find?, hp] at hq
      subst hq
      simp [updateFirst, List.find?, hp, hid]
    · simp [List.find?, hp] at hq
      simp [updateFirst, List.find?, hp, ih hq]

theorem find?_updateFirst_of_ne (ps : List InternalPlayerState) (pid qid : String)
    (f : InternalPlayerState → InternalPlayerState)
    (hne : qid ≠ pid) (hid : ∀ p, (f p).id = p.id) :
    (updateFirst ps pid f).find? (fun p => p.id = qid) =
      ps.find? (fun p => p.id = qid) := by
  induction ps with
  | nil => rfl
  | cons p rest ih =>
    by_cases hp : p.id = pid
    · simp [updateFirst, hp, List.find?, hid, Ne.symm hne, ih]
    · by_cases hq : p.id = qid
      · simp [updateFirst, hp, hq, hne, List.find?]
      · simp [updateFirst, hp, hq, List.find?, ih]

theorem updateFirst_updateFirst (ps : List InternalPlayerState) (pid : String)
    (f h : InternalPlayerState → InternalPlayerState) (hid : ∀ p, (f p).id = p.id) :
    updateFirst (updateFirst ps pid f) pid h = updateFirst ps pid fun p => h (f p) := by
  induction ps with
  | nil => rfl
  | cons p rest ih =>
    by_cases hp : p.id = pid
    · have : (f p).id = pid := by rw [hid]; exact hp
      simp [updateFirst, hp, this]
    · simp [updateFirst, hp, ih]

theorem updateFirst_eq_self (ps : List InternalPlayerState) (pid : String)
    (f : InternalPlayerState → InternalPlayerState) (q : InternalPlayerState)
    (hq : ps.find? (fun p => p.id = pid) = some q) (hfq : f q = q) :
    updateFirst ps pid f = ps := by
  induction ps with
  | nil => rfl
  | cons p rest ih =>
    by_cases hp : p.id = pid
    · simp [List.find?, hp] at hq
      subst hq
      simp [updateFirst, hp, hfq]
    · simp [List.find?, hp] at hq
      simp [updateFirst, hp, ih hq]

theorem find?_modifyIdx_cases (ps : List InternalPlayerState) (i : Nat)
    (f : InternalPlayerState → InternalPlayerState) (pid : String)
    (hid : ∀ p, (f p).id = p.id) :
    (modifyIdx ps i f).find? (fun p => p.id = pid) = ps.find? (fun p => p.id = pid) ∨
      ∃ q, ps.find? (fun p => p.id = pid) = some q ∧
        (modifyIdx ps i f).find? (fun p => p.id = pid) = some (f q) := by
  induction ps generalizing i with
  | nil => left; rfl
  | cons p rest ih =>
    cases i with
    | zero =>
      by_cases hp : p.id = pid
      · right
        refine ⟨p, ?_, ?_⟩ <;> simp [modifyIdx, List.find?, hp, hid]
      · left
        have : ¬ (f p).id = pid := by rw [hid]; exact hp
        simp [modifyIdx, List.find?, hp, this]
    | succ n =>
      by_cases hp : p.id = pid
      · left; simp [modifyIdx, List.find?, hp]
      · rcases ih n with h | ⟨q, hq1, hq2⟩
        · left; simp [modifyIdx, List.find?, hp, h]
        · right
          exact ⟨q, by simp [List.find?, hp, hq1], by simp [modifyIdx, List.find?, hp, hq2]⟩

theorem insertAt_eraseIdx (l : List α) (i : Nat) (a : α) (h : l.get? i = some a) :
    insertAt (l.eraseIdx i) i a = l := by
  induction l generalizing i with
  | nil => simp at h
  | cons x rest ih =>
    cases i with
    | zero =>
      simp at h
      subst h
      simp [List.eraseIdx, insertAt]
    | succ n =>
      simp at h
      simp [List.eraseIdx, insertAt, ih n (by simpa using h)]

theorem findIndex_found (pr : α → Bool) (l : List α) (i : Nat)
    (h : findIndex pr l = some i) : ∃ a, l.get? i = some a ∧ pr a = true := by
  induction l generalizing i with
  | nil => simp [findIndex] at h
  | cons x rest ih =>
    by_cases hx : pr x
    · simp [findIndex, hx] at h
      subst h
      exact ⟨x, rfl, hx⟩
    · simp [findIndex, hx] at h
      rcases h with ⟨n, hn, rfl⟩
      rcases ih n hn with ⟨a, ha, hpa⟩
      exact ⟨a, ha, hpa⟩

theorem map_eraseIdx (l : List α) (i : Nat) (m : α → β) :
    (l.eraseIdx i).map m = (l.map m).eraseIdx i := by
  induction l generalizing i with
  | nil => rfl
  | cons x rest ih =>
    cases i with
    | zero => rfl
    | succ n => simp [List.eraseIdx, ih]

theorem mem_of_nth (l : List α) (i : Nat) (a : α) (h : l.get? i = some a) : a ∈ l := by
  induction l generalizing i with
  | nil => simp at h
  | cons x rest ih =>
    cases i with
    | zero =>
      simp at h
      subst h
      exact List.mem_cons_self x rest
    | succ n =>
      simp at h
      exact List.mem_cons_of_mem x (ih n (by simpa using h))

theorem nodup_not_mem_eraseIdx (l : List α) (i : Nat) (a : α)
    (hn : l.Nodup) (h : l.get? i = some a) : a ∉ l.eraseIdx i := by
  induction l generalizing i with
  | nil => simp at h
  | cons x rest ih =>
    cases i with
    | zero =>
      simp at h
      subst h
      simpa [List.eraseIdx] using (List.nodup_cons.mp hn).1
    | succ n =>
      simp at h
      intro hmem
      simp [List.eraseIdx] at hmem
      rcases hmem with rfl | hmem
      · exact (List.nodup_cons.mp hn).1 (mem_of_nth rest n a (by simpa using h))
      · exact ih n (List.nodup_cons.mp hn).2 (by simpa using h) hmem

theorem eraseIdx_get?_ge (l : List α) (i j : Nat) (hij : i ≤ j) :
    (l.eraseIdx i).get? j = l.get? (j + 1) := by
  induction l generalizing i j with
  | nil => simp
  | cons x rest ih =>
    cases i with
    | zero => simp [List.eraseIdx]
    | succ n =>
      cases j with
      | zero => omega
      | succ m => simpa [List.eraseIdx] using ih n m (Nat.le_of_succ_le_succ hij)

theorem length_eraseIdx_add_one (l : List α) (i : Nat) (a : α)
    (h : l.get? i = some a) : (l.eraseIdx i).length + 1 = l.length := by
  induction l generalizing i with
  | nil => simp at h
  | cons x rest ih =>
    cases i with
    | zero => simp [List.eraseIdx]
    | succ n =>
      simp at h
      simpa [List.eraseIdx] using ih n (by simpa using h)

/-! ## Frame lemmas: which fields each engine piece can touch -/

theorem ensureDeckSize_eq (shuffle : List Card → List Card) (g : UnoGame) :
    ∃ d dp, ensureDeckSize shuffle g = { g with deck := d, discardPile := dp } := by
  unfold ensureDeckSize
  split
  · split
    · exact ⟨g.deck, g.discardPile, rfl⟩
    · exact ⟨_, _, rfl⟩
  · exact ⟨g.deck, g.discardPile, rfl⟩

theorem ensureDeckSize_total (shuffle : List Card → List Card)
    (hsh : ∀ l, (shuffle l).length = l.length) (g : UnoGame) :
    (ensureDeckSize shuffle g).deck.length + (ensureDeckSize shuffle g).discardPile.length =
      g.deck.length + g.discardPile.length := by
  unfold ensureDeckSize
  split
  · rename_i hdeck
    split
    · rfl
    · rename_i top hlast
      have hne : g.discardPile ≠ [] := by
        intro h
        rw [h] at hlast
        simp at hlast
      have h1 : 1 ≤ g.discardPile.length := by
        cases h : g.discardPile with
        | nil => exact absurd h hne
        | cons a l => simp [h]
      have h0 : g.deck.length = 0 := by
        simp [List.isEmpty_iff] at hdeck
        simp [hdeck]
      simp only [UnoGame.mk.injEq]
      simp [hsh, List.length_dropLast, h0]
      omega
  · rfl

theorem ensureDeckSize_avail (shuffle : List Card → List Card)
    (hsh : ∀ l, (shuffle l).length = l.length) (g : UnoGame) :
    (ensureDeckSize shuffle g).deck.length +
        ((ensureDeckSize shuffle g).discardPile.length - 1) =
      g.deck.length + (g.discardPile.length - 1) := by
  unfold ensureDeckSize
  split
  · rename_i hdeck
    split
    · rfl
    · rename_i top hlast
      have h0 : g.deck.length = 0 := by
        simp [List.isEmpty_iff] at hdeck
        simp [hdeck]
      simp [hsh, List.length_dropLast, h0]
  · rfl

theorem ensureDeckSize_empty_avail (shuffle : List Card → List Card)
    (hsh : ∀ l, (shuffle l).length = l.length) (g : UnoGame)
    (h : (ensureDeckSize shuffle g).deck = []) :
    g.deck.length + (g.discardPile.length - 1) = 0 := by
  unfold ensureDeckSize at h
  by_cases hdeck : g.deck.isEmpty
  · rw [if_pos hdeck] at h
    have h0 : g.deck.length = 0 := by
      simp [List.isEmpty_iff] at hdeck
      simp [hdeck]
    cases hlast : g.discardPile.getLast? with
    | none =>
      have : g.discardPile = [] := by
        cases hd : g.discardPile with
        | nil => rfl
        | cons a l =>
          rw [hd] at hlast
          simp at hlast
      simp [this, h0]
    | some top =>
      rw [hlast] at h
      simp at h
      have := hsh g.discardPile.dropLast
      rw [h] at this
      simp [List.length_dropLast] at this
      omega
  · rw [if_neg hdeck] at h
    simp [List.isEmpty_iff, h] at hdeck

theorem takeCards_succ (shuffle : List Card → List Card) (n : Nat) (g : UnoGame) :
    takeCards shuffle (n + 1) g =
      match (ensureDeckSize shuffle g).deck with
      | [] => ([], ensureDeckSize shuffle g)
      | c :: rest =>
        let res := takeCards shuffle n { ensureDeckSize shuffle g with deck := rest }
        (c :: res.1, res.2) := rfl

theorem takeCards_eq (shuffle : List Card → List Card) (n : Nat) :
    ∀ g : UnoGame,
      ∃ d dp, (takeCards shuffle n g).2 = { g with deck := d, discardPile := dp } := by
  induction n with
  | zero => intro g; exact ⟨g.deck, g.discardPile, rfl⟩
  | succ n ih =>
    intro g
    obtain ⟨d1, dp1, h1⟩ := ensureDeckSize_eq shuffle g
    rw [takeCards_succ, h1]
    cases d1 with
    | nil => exact ⟨[], dp1, rfl⟩
    | cons c rest =>
      obtain ⟨d, dp, h2⟩ := ih { g with deck := rest, discardPile := dp1 }
      exact ⟨d, dp, h2⟩

theorem takeCards_total (shuffle : List Card → List Card)
    (hsh : ∀ l, (shuffle l).length = l.length) (n : Nat) :
    ∀ g : UnoGame,
      (takeCards shuffle n g).1.length + (takeCards shuffle n g).2.deck.length +
          (takeCards shuffle n g).2.discardPile.length =
        g.deck.length + g.discardPile.length := by
  induction n with
  | zero => intro g; simp [takeCards]
  | succ n ih =>
    intro g
    have htot := ensureDeckSize_total shuffle hsh g
    obtain ⟨d1, dp1, h1⟩ := ensureDeckSize_eq shuffle g
    rw [takeCards_succ, h1]
    rw [h1] at htot
    simp at htot
    cases d1 with
    | nil => simpa using htot
    | cons c rest =>
      have hrec := ih { g with deck := rest, discardPile := dp1 }
      simp at hrec ⊢
      simp at htot
      omega

theorem takeCards_count (shuffle : List Card → List Card)
    (hsh : ∀ l, (shuffle l).length = l.length) (n : Nat) :
    ∀ g : UnoGame,
      (takeCards shuffle n g).1.length =
        min n (g.deck.length + (g.discardPile.length - 1)) := by
  induction n with
  | zero => intro g; simp [takeCards]
  | succ n ih =>
    intro g
    obtain ⟨d1, dp1, h1⟩ := ensureDeckSize_eq shuffle g
    rw [takeCards_succ, h1]
    cases d1 with
    | nil =>
      have h0 := ensureDeckSize_empty_avail shuffle hsh g (by rw [h1])
      simp [h0]
    | cons c rest =>
      have havail := ensureDeckSize_avail shuffle hsh g
      rw [h1] at havail
      simp at havail
      have hrec := ih { g with deck := rest, discardPile := dp1 }
      simp [hrec]
      omega

/-! ## Turn-advance lemmas -/

theorem moveSteps_eq (g : UnoGame) (steps : Nat) :
    ∃ idx, moveSteps g steps = { g with currentPlayerIndex := idx } := by
  unfold moveSteps
  split
  · exact ⟨g.currentPlayerIndex, rfl⟩
  · exact ⟨_, rfl⟩

theorem prepare_eq (g : UnoGame) :
    ∃ ps, prepareCurrentPlayerForTurn g = { g with players := ps } :=
  ⟨_, rfl⟩

theorem mem_modifyIdx (ps : List α) (i : Nat) (f : α → α) (q : α)
    (h : q ∈ modifyIdx ps i f) : q ∈ ps ∨ ∃ p, p ∈ ps ∧ q = f p := by
  induction ps generalizing i with
  | nil => simp [modifyIdx] at h
  | cons p rest ih =>
    cases i with
    | zero =>
      simp [modifyIdx] at h
      rcases h with rfl | h
      · exact Or.inr ⟨p, List.mem_cons_self p rest, rfl⟩
      · exact Or.inl (List.mem_cons_of_mem p h)
    | succ n =>
      simp [modifyIdx] at h
      rcases h with rfl | h
      · exact Or.inl (List.mem_cons_self q rest)
      · rcases ih n h with h1 | ⟨p1, hp1, rfl⟩
        · exact Or.inl (List.mem_cons_of_mem p h1)
        · exact Or.inr ⟨p1, List.mem_cons_of_mem p hp1, rfl⟩

theorem mem_updateFirst (ps : List InternalPlayerState) (pid : String)
    (f : InternalPlayerState → InternalPlayerState) (q : InternalPlayerState)
    (h : q ∈ updateFirst ps pid f) : q ∈ ps ∨ ∃ p, p ∈ ps ∧ q = f p := by
  induction ps with
  | nil => simp [updateFirst] at h
  | cons p rest ih =>
    by_cases hp : p.id = pid
    · simp [updateFirst, hp] at h
      rcases h with rfl | h
      · exact Or.inr ⟨p, List.mem_cons_self p rest, rfl⟩
      · exact Or.inl (List.mem_cons_of_mem p h)
    · simp [updateFirst, hp] at h
      rcases h with rfl | h
      · exact Or.inl (List.mem_cons_self q rest)
      · rcases ih h with h1 | ⟨p1, hp1, rfl⟩
        · exact Or.inl (List.mem_cons_of_mem p h1)
        · exact Or.inr ⟨p1, List.mem_cons_of_mem p hp1, rfl⟩

/-- All players have a zero frozen counter. -/
def noFrozen (g : UnoGame) : Prop :=
  ∀ q ∈ g.players, q.frozenForTurns = 0

theorem noFrozen_modifyIdx (g : UnoGame) (i : Nat)
    (f : InternalPlayerState → InternalPlayerState)
    (hf : ∀ p, (f p).frozenForTurns = p.frozenForTurns)
    (h : noFrozen g) : noFrozen { g with players := modifyIdx g.players i f } := by
  intro q hq
  rcases mem_modifyIdx g.players i f q hq with h1 | ⟨p, hp, rfl⟩
  · exact h q h1
  · rw [hf]
    exact h p hp

theorem noFrozen_updateFirst (g : UnoGame) (pid : String)
    (f : InternalPlayerState → InternalPlayerState)
    (hf : ∀ p, (f p).frozenForTurns = p.frozenForTurns)
    (h : noFrozen g) : noFrozen { g with players := updateFirst g.players pid f } := by
  intro q hq
  rcases mem_updateFirst g.players pid f q hq with h1 | ⟨p, hp, rfl⟩
  · exact h q h1
  · rw [hf]
    exact h p hp

theorem resolveFrozenGo_noFrozen (shuffle : List Card → List Card) (fuel : Nat)
    (g : UnoGame) (h : noFrozen g) (hfuel : 0 < fuel) :
    resolveFrozenGo shuffle fuel g = Except.ok g := by
  cases fuel with
  | zero => omega
  | succ n =>
    unfold resolveFrozenGo
    split
    · rfl
    · split
      · rfl
      · rename_i hne player hget
        rw [if_pos (h player (mem_of_nth g.players g.currentPlayerIndex player hget))]

theorem advanceTurn_noFrozen (shuffle : List Card → List Card) (g : UnoGame)
    (skipCount : Nat) (h : noFrozen g) :
    advanceTurn shuffle g skipCount =
      Except.ok (prepareCurrentPlayerForTurn (moveSteps g skipCount)) := by
  unfold advanceTurn
  split
  · rename_i h0
    have hnil : g.players = [] := List.length_eq_zero.mp h0
    obtain ⟨ps, d, dp, pd, idx, dir, ds, cc, hs, w, ppd, sync⟩ := g
    simp only at hnil
    subst hnil
    rfl
  · rename_i h0
    have h1 : noFrozen (moveSteps g skipCount) := by
      obtain ⟨idx, hm⟩ := moveSteps_eq g skipCount
      rw [hm]
      exact h
    have h2 : noFrozen (prepareCurrentPlayerForTurn (moveSteps g skipCount)) := by
      exact noFrozen_modifyIdx _ _ _ (fun p => rfl) h1
    exact resolveFrozenGo_noFrozen shuffle _ _ h2 (by omega)

/-- The engine fields that frozen resolution and turn advancement never
touch. -/
def fixedPart (g : UnoGame) :
    List PowerCard × Int × CardColor × Bool × Option String × Option String :=
  (g.powerDeck, g.direction, g.currentColor, g.hasStarted, g.winnerId,
    g.pendingPowerDrawPlayerId)

theorem fixedPart_mk (X : UnoGame) (ps : List InternalPlayerState) (d dp : List Card)
    (idx ds : Nat) (syncs : List String) :
    fixedPart ⟨ps, d, dp, X.powerDeck, idx, X.direction, ds, X.currentColor,
      X.hasStarted, X.winnerId, X.pendingPowerDrawPlayerId, syncs⟩ = fixedPart X := rfl

theorem fixedPart_takeCards (shuffle : List Card → List Card) (n : Nat) (g : UnoGame) :
    fixedPart (takeCards shuffle n g).2 = fixedPart g := by
  obtain ⟨d, dp, h⟩ := takeCards_eq shuffle n g
  rw [h]
  rfl

theorem players_takeCards (shuffle : List Card → List Card) (n : Nat) (g : UnoGame) :
    (takeCards shuffle n g).2.players = g.players := by
  obtain ⟨d, dp, h⟩ := takeCards_eq shuffle n g
  rw [h]

theorem index_takeCards (shuffle : List Card → List Card) (n : Nat) (g : UnoGame) :
    (takeCards shuffle n g).2.currentPlayerIndex = g.currentPlayerIndex := by
  obtain ⟨d, dp, h⟩ := takeCards_eq shuffle n g
  rw [h]

theorem drawStack_takeCards (shuffle : List Card → List Card) (n : Nat) (g : UnoGame) :
    (takeCards shuffle n g).2.drawStack = g.drawStack := by
  obtain ⟨d, dp, h⟩ := takeCards_eq shuffle n g
  rw [h]

theorem fixedPart_moveSteps (g : UnoGame) (steps : Nat) :
    fixedPart (moveSteps g steps) = fixedPart g := by
  obtain ⟨idx, h⟩ := moveSteps_eq g steps
  rw [h]
  rfl

theorem fixedPart_prepare (g : UnoGame) :
    fixedPart (prepareCurrentPlayerForTurn g) = fixedPart g := rfl

theorem fixedPart_frozenDecrement (g : UnoGame) :
    fixedPart (frozenDecrement g) = fixedPart g := rfl

theorem fixedPart_frozenPayMid (shuffle : List Card → List Card) (g : UnoGame)
    (player : InternalPlayerState) :
    fixedPart (frozenPayMid shuffle g player) = fixedPart g := by
  unfold frozenPayMid
  split <;> simp only [fixedPart_mk, fixedPart_takeCards]

theorem fixedPart_frozenPay (shuffle : List Card → List Card) (g : UnoGame)
    (player : InternalPlayerState) :
    fixedPart (frozenPay shuffle g player) = fixedPart g := by
  unfold frozenPay
  rw [fixedPart_mk, fixedPart_frozenPayMid]

theorem fixedPart_resolveFrozenBody (shuffle : List Card → List Card) (g : UnoGame)
    (player : InternalPlayerState) :
    fixedPart (resolveFrozenBody shuffle g player) = fixedPart g := by
  unfold resolveFrozenBody
  split
  · rw [fixedPart_frozenPay, fixedPart_frozenDecrement]
  · rfl

theorem resolveFrozenGo_fixed (shuffle : List Card → List Card) (fuel : Nat) :
    ∀ g g', resolveFrozenGo shuffle fuel g = Except.ok g' → fixedPart g' = fixedPart g := by
  induction fuel with
  | zero =>
    intro g g' h
    simp [resolveFrozenGo] at h
  | succ n ih =>
    intro g g' h
    unfold resolveFrozenGo at h
    split at h
    · injection h with h
      rw [← h]
    · split at h
      · injection h with h
        rw [← h]
      · split at h
        · injection h with h
          rw [← h]
        · rw [ih _ _ h, fixedPart_prepare, fixedPart_moveSteps,
            fixedPart_resolveFrozenBody]

theorem advanceTurn_fixed (shuffle : List Card → List Card) (g g' : UnoGame)
    (skipCount : Nat) (h : advanceTurn shuffle g skipCount = Except.ok g') :
    fixedPart g' = fixedPart g := by
  unfold advanceTurn at h
  split at h
  · injection h with h
    rw [← h]
  · rw [resolveFrozenGo_fixed shuffle _ _ _ h, fixedPart_prepare, fixedPart_moveSteps]

/-! ## Conservation lemmas (invariant I1 machinery) -/

theorem totalCards_def (g : UnoGame) :
    totalCards g =
      (g.players.map fun p => p.hand.length).sum + g.deck.length +
        g.discardPile.length := rfl

theorem totalCards_modify_flags (g : UnoGame) (i : Nat)
    (f : InternalPlayerState → InternalPlayerState) (hf : ∀ p, (f p).hand = p.hand) :
    totalCards { g with players := modifyIdx g.players i f } = totalCards g := by
  simp only [totalCards]
  rw [map_modifyIdx_eq]
  intro p
  simp [hf]

theorem totalCards_update_flags (g : UnoGame) (pid : String)
    (f : InternalPlayerState → InternalPlayerState) (hf : ∀ p, (f p).hand = p.hand) :
    totalCards { g with players := updateFirst g.players pid f } = totalCards g := by
  simp only [totalCards]
  rw [map_updateFirst_eq]
  intro p
  simp [hf]

theorem takeCards_totalCards (shuffle : List Card → List Card)
    (hsh : ∀ l, (shuffle l).length = l.length) (n : Nat) (g : UnoGame) :
    (takeCards shuffle n g).1.length + totalCards (takeCards shuffle n g).2 =
      totalCards g := by
  have h1 := takeCards_total shuffle hsh n g
  obtain ⟨d, dp, h⟩ := takeCards_eq shuffle n g
  rw [h] at h1
  simp at h1
  rw [h]
  simp [totalCards]
  omega

theorem totalCards_moveSteps (g : UnoGame) (steps : Nat) :
    totalCards (moveSteps g steps) = totalCards g := by
  obtain ⟨idx, h⟩ := moveSteps_eq g steps
  rw [h]
  rfl

theorem totalCards_prepare (g : UnoGame) :
    totalCards (prepareCurrentPlayerForTurn g) = totalCards g :=
  totalCards_modify_flags g g.currentPlayerIndex _ fun p => rfl

theorem players_frozenDecrement_get (g : UnoGame) (player : InternalPlayerState)
    (hget : g.players.get? g.currentPlayerIndex = some player) :
    (frozenDecrement g).players.get? (frozenDecrement g).currentPlayerIndex =
      some
        { player with
          frozenForTurns := player.frozenForTurns - 1,
          isAwaitingPowerDraw := false,
          pendingSkipCount := none,
          hasPlayedPowerCardThisTurn := false } := by
  show (modifyIdx g.players g.currentPlayerIndex _).get? g.currentPlayerIndex = _
  rw [modifyIdx_get?_self, hget]
  rfl

theorem totalCards_frozenDecrement (g : UnoGame) :
    totalCards (frozenDecrement g) = totalCards g :=
  totalCards_modify_flags g _ _ fun p => rfl

theorem totalCards_frozenPayMid (shuffle : List Card → List Card)
    (hsh : ∀ l, (shuffle l).length = l.length) (g : UnoGame)
    (player q : InternalPlayerState)
    (hget : g.players.get? g.currentPlayerIndex = some q) :
    totalCards (frozenPayMid shuffle g player) = totalCards g := by
  have htc := takeCards_totalCards shuffle hsh g.drawStack g
  unfold frozenPayMid
  split
  · rename_i hemp
    rw [List.isEmpty_iff_length_eq_zero] at hemp
    omega
  · have hps := players_takeCards shuffle g.drawStack g
    have hidx := index_takeCards shuffle g.drawStack g
    have hsum := sum_map_modifyIdx (takeCards shuffle g.drawStack g).2.players
      (takeCards shuffle g.drawStack g).2.currentPlayerIndex
      (fun p => { p with hand := p.hand ++ (takeCards shuffle g.drawStack g).1 })
      (fun p => p.hand.length) q (by rw [hps, hidx]; exact hget)
    simp only [totalCards] at htc ⊢
    simp at hsum
    omega

theorem totalCards_frozenPay (shuffle : List Card → List Card)
    (hsh : ∀ l, (shuffle l).length = l.length) (g : UnoGame)
    (player q : InternalPlayerState)
    (hget : g.players.get? g.currentPlayerIndex = some q) :
    totalCards (frozenPay shuffle g player) = totalCards g := by
  unfold frozenPay
  have h1 : totalCards
      { frozenPayMid shuffle g player with
        players :=
          modifyIdx (frozenPayMid shuffle g player).players
            (frozenPayMid shuffle g player).currentPlayerIndex fun p =>
              { p with hasCalledUno := false },
        drawStack := 0 } =
      totalCards (frozenPayMid shuffle g player) := by
    simp only [totalCards]
    rw [map_modifyIdx_eq]
    intro p
    rfl
  rw [h1, totalCards_frozenPayMid shuffle hsh g player q hget]

theorem resolveFrozenBody_total (shuffle : List Card → List Card)
    (hsh : ∀ l, (shuffle l).length = l.length) (g : UnoGame)
    (player : InternalPlayerState)
    (hget : g.players.get? g.currentPlayerIndex = some player) :
    totalCards (resolveFrozenBody shuffle g player) = totalCards g := by
  unfold resolveFrozenBody
  split
  · rw [totalCards_frozenPay shuffle hsh (frozenDecrement g) player _
      (players_frozenDecrement_get g player hget), totalCards_frozenDecrement]
  · exact totalCards_frozenDecrement g

theorem resolveFrozenGo_total (shuffle : List Card → List Card)
    (hsh : ∀ l, (shuffle l).length = l.length) (fuel : Nat) :
    ∀ g g', resolveFrozenGo shuffle fuel g = Except.ok g' → totalCards g' = totalCards g := by
  induction fuel with
  | zero =>
    intro g g' h
    simp [resolveFrozenGo] at h
  | succ n ih =>
    intro g g' h
    unfold resolveFrozenGo at h
    split at h
    · injection h with h
      rw [← h]
    · split at h
      · injection h with h
        rw [← h]
      · split at h
        · injection h with h
          rw [← h]
        · rename_i hne player hget hfr
          rw [ih _ _ h, totalCards_prepare, totalCards_moveSteps,
            resolveFrozenBody_total shuffle hsh g player hget]

theorem advanceTurn_total (shuffle : List Card → List Card)
    (hsh : ∀ l, (shuffle l).length = l.length) (g g' : UnoGame) (skipCount : Nat)
    (h : advanceTurn shuffle g skipCount = Except.ok g') :
    totalCards g' = totalCards g := by
  unfold advanceTurn at h
  split at h
  · injection h with h
    rw [← h]
  · rw [resolveFrozenGo_total shuffle hsh _ _ _ h, totalCards_prepare,
      totalCards_moveSteps]

/-! ## Per-operation conservation -/

theorem draw_total (shuffle : List Card → List Card)
    (hsh : ∀ l, (shuffle l).length = l.length) (g g' : UnoGame) (pid : String)
    (h : draw shuffle g pid = Except.ok g') : totalCards g' = totalCards g := by
  simp only [draw] at h
  split at h
  · exact absurd h (by simp)
  · split at h
    · exact absurd h (by simp)
    · rename_i u player hp
      split at h
      · exact absurd h (by simp)
      · rw [advanceTurn_total shuffle hsh _ _ _ h]
        by_cases hds : g.drawStack > 0
      
        · simp only [if_pos hds]
          have hfind : (takeCards shuffle g.drawStack g).2.players.find?
              (fun p => p.id = pid) = some player := by
            rw [players_takeCards]
            exact hp
          have hsum := sum_map_updateFirst _ pid
            (fun p =>
              { p with
                hand := p.hand ++ (takeCards shuffle g.drawStack g).1,
                hasCalledUno := false,
                pendingSkipCount := none })
            (fun p => p.hand.length) player hfind
          have htc := takeCards_totalCards shuffle hsh g.drawStack g
          simp at hsum
          simp only [totalCards] at htc ⊢
          omega
        · simp only [if_neg hds]
          have hfind : (takeCards shuffle DEFAULT_DRAW_COUNT g).2.players.find?
              (fun p => p.id = pid) = some player := by
            rw [players_takeCards]
            exact hp
          have hsum := sum_map_updateFirst _ pid
            (fun p =>
              { p with
                hand := p.hand ++ (takeCards shuffle DEFAULT_DRAW_COUNT g).1,
                hasCalledUno := false,
                pendingSkipCount := none })
            (fun p => p.hand.length) player hfind
          have htc := takeCards_totalCards shuffle hsh DEFAULT_DRAW_COUNT g
          simp at hsum
          simp only [totalCards] at htc ⊢
          omega

theorem evaluate_total (g : UnoGame) (pid : String) (skip : Nat) :
    totalCards (evaluatePowerDrawRequirement g pid skip).1 = totalCards g := by
  unfold evaluatePowerDrawRequirement
  split
  · rfl
  · split
    · split
      · exact totalCards_update_flags _ pid _ fun p => rfl
      · exact totalCards_update_flags _ pid _ fun p => rfl
    · exact totalCards_update_flags _ pid _ fun p => rfl

theorem pcG1_total (g : UnoGame) (pid : String) (player : InternalPlayerState)
    (card : Card) (cardIndex : Nat)
    (hfind : getPlayer? g pid = some player)
    (hcard : player.hand.get? cardIndex = some card) :
    totalCards (pcG1 g pid player card cardIndex) = totalCards g := by
  unfold getPlayer? at hfind
  have hlen := length_eraseIdx_add_one player.hand cardIndex card hcard
  have hsum := sum_map_updateFirst g.players pid
    (fun p => { p with hand := player.hand.eraseIdx cardIndex })
    (fun p => p.hand.length) player hfind
  simp only [pcG1, totalCards]
  simp at hsum
  simp
  omega

theorem playCardEffect_total (g : UnoGame) (card : Card) :
    totalCards (playCardEffect g card) = totalCards g := by
  unfold playCardEffect
  split <;> rfl

theorem pcG4_total (g : UnoGame) (pid : String) (player : InternalPlayerState)
    (card : Card) (cardIndex : Nat) (resolvedColor : Option CardColor)
    (hfind : getPlayer? g pid = some player)
    (hcard : player.hand.get? cardIndex = some card) :
    totalCards (pcG4 g pid player card cardIndex resolvedColor) = totalCards g := by
  simp only [pcG4]
  rw [totalCards_update_flags]
  · show totalCards (playCardEffect (pcG2 g pid player card cardIndex resolvedColor) card) = _
    rw [playCardEffect_total]
    show totalCards (pcG1 g pid player card cardIndex) = _
    exact pcG1_total g pid player card cardIndex hfind hcard
  · intro p
    rfl

theorem pcG5_total (g : UnoGame) (pid : String) (player : InternalPlayerState)
    (card : Card) (cardIndex : Nat) (resolvedColor : Option CardColor)
    (hfind : getPlayer? g pid = some player)
    (hcard : player.hand.get? cardIndex = some card) :
    totalCards (pcG5 g pid player card cardIndex resolvedColor) = totalCards g := by
  simp only [pcG5]
  split
  · rw [totalCards_update_flags]
    · exact pcG4_total g pid player card cardIndex resolvedColor hfind hcard
    · intro p
      rfl
  · exact pcG4_total g pid player card cardIndex resolvedColor hfind hcard

theorem playCard_total (shuffle : List Card → List Card)
    (hsh : ∀ l, (shuffle l).length = l.length) (g : UnoGame) (pid : String)
    (cid : Nat) (chosen : Option CardColor) (res : UnoGame × PlayCardResult)
    (h : playCard shuffle g pid cid chosen = Except.ok res) :
    totalCards res.1 = totalCards g := by
  unfold playCard at h
  split at h
  all_goals try split at h
  all_goals try split at h
  all_goals try split at h
  all_goals try split at h
  all_goals try split at h
  all_goals try split at h
  all_goals try split at h
  all_goals try split at h
  all_goals try split at h
  all_goals try split at h
  all_goals try split at h
  all_goals try exact Except.noConfusion h
  all_goals injection h with h
  all_goals rw [← h]
  all_goals try
    (rename_i g6 hadv
     rw [advanceTurn_total shuffle hsh _ _ _ hadv, evaluate_total]
     exact pcG5_total _ _ _ _ _ _ (by assumption) (by assumption))
  all_goals try
    (rw [evaluate_total]
     exact pcG5_total _ _ _ _ _ _ (by assumption) (by assumption))
  all_goals exact pcG4_total _ _ _ _ _ _ (by assumption) (by assumption)

theorem ensurePowerDeckSize_eq (shufflePower : List PowerCard → List PowerCard)
    (g : UnoGame) :
    ∃ pd, ensurePowerDeckSize shufflePower g = { g with powerDeck := pd } := by
  unfold ensurePowerDeckSize
  split
  · exact ⟨_, rfl⟩
  · exact ⟨g.powerDeck, rfl⟩

theorem ensurePowerDeckSize_total (shufflePower : List PowerCard → List PowerCard)
    (g : UnoGame) :
    totalCards (ensurePowerDeckSize shufflePower g) = totalCards g := by
  obtain ⟨pd, h⟩ := ensurePowerDeckSize_eq shufflePower g
  rw [h]
  rfl

theorem dpcG2_total (g1 : UnoGame) (pid : String) (card : PowerCard)
    (restDeck : List PowerCard) :
    totalCards (dpcG2 g1 pid card restDeck) = totalCards g1 := by
  simp only [totalCards, dpcG2]
  rw [map_updateFirst_eq]
  intro p
  rfl

theorem dpcG3_total (g2 : UnoGame) (pid : String) :
    totalCards (dpcG3 g2 pid) = totalCards g2 := by
  simp only [totalCards, dpcG3]
  rw [map_updateFirst_eq]
  intro p
  rfl

theorem totalCards_eq_of (X Y : UnoGame)
    (hps : (Y.players.map fun p => p.hand.length).sum =
      (X.players.map fun p => p.hand.length).sum)
    (hd : Y.deck = X.deck) (hdp : Y.discardPile = X.discardPile) :
    totalCards Y = totalCards X := by
  simp only [totalCards, hps, hd, hdp]

theorem drawPowerCard_total (shuffle : List Card → List Card)
    (shufflePower : List PowerCard → List PowerCard)
    (hsh : ∀ l, (shuffle l).length = l.length) (g : UnoGame) (pid : String)
    (res : UnoGame × PowerCard)
    (h : drawPowerCard shuffle shufflePower g pid = Except.ok res) :
    totalCards res.1 = totalCards g := by
  unfold drawPowerCard at h
  split at h
  all_goals try split at h
  all_goals try split at h
  all_goals try split at h
  all_goals try split at h
  all_goals try split at h
  all_goals try split at h
  all_goals try exact Except.noConfusion h
  all_goals injection h with h
  all_goals rw [← h]
  · rename_i u1 card restDeck heq1 u2 p2 heq2 hreq2
    refine Eq.trans
      (totalCards_eq_of (dpcG2 (ensurePowerDeckSize shufflePower g) pid card restDeck) _
        ?_ rfl rfl) ?_
    · rw [map_updateFirst_eq]
      intro p
      rfl
    · rw [dpcG2_total, ensurePowerDeckSize_total]
  · rename_i g4 hadv
    show totalCards g4 = totalCards g
    rw [advanceTurn_total shuffle hsh _ _ _ hadv, dpcG3_total, dpcG2_total,
      ensurePowerDeckSize_total]

theorem length_filter_color (l : List Card) (color : CardColor) :
    (l.filter fun handCard => handCard.color ≠ color).length +
      (l.filter fun handCard => handCard.color = color).length = l.length := by
  induction l with
  | nil => rfl
  | cons c rest ih =>
    by_cases h : c.color = color <;>
      simp [List.filter_cons, h] at ih ⊢ <;>
      omega

theorem cardRushGo_total (shuffle : List Card → List Card)
    (hsh : ∀ l, (shuffle l).length = l.length) (pid : String) (n : Nat) :
    ∀ (i : Nat) (g : UnoGame) (acc : List String),
      totalCards (cardRushGo shuffle pid n i g acc).1 = totalCards g := by
  induction n with
  | zero => intro i g acc; rfl
  | succ n ih =>
    intro i g acc
    unfold cardRushGo
    split
    · rfl
    · rename_i target hget
      split
      · exact ih (i + 1) g acc
      · split
        · rename_i hemp
          rw [ih]
          have htc := takeCards_totalCards shuffle hsh 2 g
          rw [List.isEmpty_iff_length_eq_zero] at hemp
          omega
        · rename_i hemp
          rw [ih]
          have htc := takeCards_totalCards shuffle hsh 2 g
          have hget2 : (takeCards shuffle 2 g).2.players.get? i = some target := by
            rw [players_takeCards]
            exact hget
          have hsum := sum_map_modifyIdx (takeCards shuffle 2 g).2.players i
            (fun p => { p with hand := p.hand ++ (takeCards shuffle 2 g).1 })
            (fun p => p.hand.length) target hget2
          simp only [totalCards] at htc ⊢
          simp at hsum
          omega

theorem colorRushCommit_total (shuffle : List Card → List Card)
    (hsh : ∀ l, (shuffle l).length = l.length) (g : UnoGame) (pid : String)
    (actor q : InternalPlayerState) (color : CardColor)
    (hq : getPlayer? g pid = some q) (hqh : q.hand = actor.hand) :
    totalCards (colorRushCommit shuffle g pid actor color) = totalCards g := by
  unfold getPlayer? at hq
  have hsum := sum_map_updateFirst g.players pid
    (fun p =>
      { p with
        hand := actor.hand.filter fun handCard => handCard.color ≠ color,
        hasCalledUno :=
          (actor.hand.filter fun handCard => handCard.color ≠ color).length == 1 })
    (fun p => p.hand.length) q hq
  have hpart := length_filter_color actor.hand color
  simp only [colorRushCommit, totalCards]
  simp at hsum hpart ⊢
  simp [hsh]
  rw [hqh] at hsum
  omega

theorem swap_total (g : UnoGame) (pid tid : String) (q target : InternalPlayerState)
    (hne : tid ≠ pid)
    (hq : getPlayer? g pid = some q)
    (ht : getPlayer? g tid = some target) :
    totalCards (swapSecond (swapFirst g pid target.hand) pid tid q.hand) = totalCards g := by
  unfold getPlayer? at hq ht
  have hsum1 := sum_map_updateFirst g.players pid
    (fun p => { p with hand := target.hand, hasCalledUno := target.hand.length == 1 })
    (fun p => p.hand.length) q hq
  have ht1 : (swapFirst g pid target.hand).players.find? (fun p => p.id = tid) =
      some target := by
    unfold swapFirst
    rw [find?_updateFirst_of_ne]
    · exact ht
    · exact hne
    · intro p
      rfl
  have hsum2 := sum_map_updateFirst (swapFirst g pid target.hand).players tid
    (fun p => { p with hand := q.hand, hasCalledUno := q.hand.length == 1 })
    (fun p => p.hand.length) target ht1
  simp only [swapSecond, swapFirst, totalCards] at hsum2 ⊢
  simp at hsum1 hsum2
  omega

theorem powerCardEffect_total (shuffle : List Card → List Card)
    (hsh : ∀ l, (shuffle l).length = l.length) (g : UnoGame) (pid : String)
    (actor : InternalPlayerState) (powerCard : PowerCard)
    (payload : PlayPowerCardPayload) (res : UnoGame × List String)
    (q : InternalPlayerState) (hq : getPlayer? g pid = some q) (hqh : q.hand = actor.hand)
    (h : powerCardEffect shuffle g pid actor powerCard payload = Except.ok res) :
    totalCards res.1 = totalCards g := by
  unfold powerCardEffect at h
  split at h
  · injection h with h
    rw [← h]
    exact cardRushGo_total shuffle hsh pid g.players.length 0 g []
  · split at h
    · exact Except.noConfusion h
    · split at h
      · exact Except.noConfusion h
      · split at h
        · exact Except.noConfusion h
        · injection h with h
          rw [← h]
          show totalCards { g with players := updateFirst g.players _ _ } = totalCards g
          rw [totalCards_update_flags]
          intro p
          rfl
  · split at h
    · exact Except.noConfusion h
    · split at h
      · exact Except.noConfusion h
      · split at h
        · exact Except.noConfusion h
        · rename_i color hcol hwild hany
          injection h with h
          rw [← h]
          exact colorRushCommit_total shuffle hsh g pid actor q color hq hqh
  · split at h
    · exact Except.noConfusion h
    · split at h
      · exact Except.noConfusion h
      · split at h
        · exact Except.noConfusion h
        · rename_i u1 targetId hpt hne u2 target hT
          injection h with h
          rw [← h]
          rw [← hqh]
          exact swap_total g pid targetId q target hne hq hT

theorem ppcRemoved_total (g : UnoGame) (pid : String) (cardIndex : Nat) :
    totalCards (ppcRemoved g pid cardIndex) = totalCards g := by
  simp only [totalCards, ppcRemoved]
  rw [map_updateFirst_eq]
  intro p
  rfl

theorem playPowerCard_total (shuffle : List Card → List Card)
    (hsh : ∀ l, (shuffle l).length = l.length) (g : UnoGame) (pid : String)
    (payload : PlayPowerCardPayload) (g1 : UnoGame) (r : PlayPowerCardResult)
    (h : playPowerCard shuffle g pid payload = (g1, Except.ok r)) :
    totalCards g1 = totalCards g := by
  unfold playPowerCard at h
  split at h
  all_goals try split at h
  all_goals try split at h
  all_goals try split at h
  all_goals try split at h
  all_goals try split at h
  all_goals try split at h
  all_goals try split at h
  all_goals injection h with h1 h2
  all_goals try exact Except.noConfusion h2
  rename_i player hp hnA hnP uIdxO cardIndex hidx uPCO powerCard hcard uScr geff affected heff
  rw [← h1]
  have hq : getPlayer? (ppcRemoved g pid cardIndex) pid =
      some { player with powerCards := player.powerCards.eraseIdx cardIndex } := by
    show (updateFirst g.players pid _).find? (fun p => p.id = pid) = _
    rw [find?_updateFirst_self]
    · exact hp
    · intro p
      rfl
  have heffTotal := powerCardEffect_total shuffle hsh (ppcRemoved g pid cardIndex) pid
    player powerCard payload (geff, affected) _ hq rfl heff
  have hflag : totalCards
      { geff with
        players :=
          updateFirst geff.players pid fun p =>
            { p with hasPlayedPowerCardThisTurn := true } } = totalCards geff :=
    totalCards_update_flags geff pid _ fun p => rfl
  rw [hflag]
  rw [show totalCards (geff, affected).1 = totalCards geff from rfl] at heffTotal
  rw [heffTotal, ppcRemoved_total]

/-! ## Conservation through start -/

theorem nth_lt (l : List α) (i : Nat) (h : i < l.length) : ∃ a, l.get? i = some a := by
  induction l generalizing i with
  | nil => simp at h
  | cons x rest ih =>
    cases i with
    | zero => exact ⟨x, rfl⟩
    | succ n =>
      simp at h
      obtain ⟨a, ha⟩ := ih n (by omega)
      exact ⟨a, by simpa using ha⟩

theorem take_modifyIdx (ps : List α) (i : Nat) (f : α → α) :
    (modifyIdx ps i f).take i = ps.take i := by
  induction ps generalizing i with
  | nil => simp [modifyIdx]
  | cons p rest ih =>
    cases i with
    | zero => simp [modifyIdx]
    | succ n => simp [modifyIdx, List.take_succ_cons, ih]

theorem take_succ_modifyIdx (ps : List α) (i : Nat) (f : α → α) (q : α)
    (hq : ps.get? i = some q) :
    (modifyIdx ps i f).take (i + 1) = ps.take i ++ [f q] := by
  induction ps generalizing i with
  | nil => simp at hq
  | cons p rest ih =>
    cases i with
    | zero =>
      simp at hq
      subst hq
      simp [modifyIdx]
    | succ n =>
      simp at hq
      simp [modifyIdx, List.take_succ_cons, ih n (by simpa using hq)]

theorem dealGo_total (shuffle : List Card → List Card)
    (hsh : ∀ l, (shuffle l).length = l.length) (n : Nat) :
    ∀ (i : Nat) (g : UnoGame), i + n = g.players.length →
      totalCards (dealGo shuffle n i g) =
        ((g.players.take i).map fun p => p.hand.length).sum + g.deck.length +
          g.discardPile.length := by
  induction n with
  | zero =>
    intro i g hi
    simp at hi
    subst hi
    rw [List.take_length]
    rfl
  | succ n ih =>
    intro i g hi
    have hlt : i < g.players.length := by omega
    obtain ⟨q, hq⟩ := nth_lt g.players i hlt
    unfold dealGo
    rw [ih]
    · have hq2 : (takeCards shuffle 7 g).2.players.get? i = some q := by
        rw [players_takeCards]
        exact hq
      have htake := take_succ_modifyIdx (takeCards shuffle 7 g).2.players i
        (fun p =>
          { p with
            hand := (takeCards shuffle 7 g).1,
            hasCalledUno := false,
            powerCards := [],
            powerPoints := 0,
            hasPlayedPowerCardThisTurn := false,
            isAwaitingPowerDraw := false,
            pendingSkipCount := none,
            frozenForTurns := 0 })
        q hq2
      have htc := takeCards_total shuffle hsh 7 g
      show (List.map (fun p => p.hand.length)
          ((modifyIdx (takeCards shuffle 7 g).2.players i _).take (i + 1))).sum + _ + _ = _
      rw [htake, players_takeCards]
      simp
      omega
    · show i + 1 + n = (modifyIdx (takeCards shuffle 7 g).2.players i _).length
      rw [modifyIdx_length, players_takeCards]
      omega

theorem firstCardGo_spec (shuffle : List Card → List Card)
    (hsh : ∀ l, (shuffle l).length = l.length) (fuel : Nat) :
    ∀ (g : UnoGame) (c : Card) (g' : UnoGame),
      firstCardGo shuffle fuel g = Except.ok (c, g') →
      g'.deck.length + 1 = g.deck.length ∧ g'.players = g.players := by
  induction fuel with
  | zero =>
    intro g c g' h
    exact Except.noConfusion h
  | succ n ih =>
    intro g c g' h
    unfold firstCardGo at h
    split at h
    · exact Except.noConfusion h
    · rename_i c0 rest
      split at h
      · obtain ⟨h1, h2⟩ := ih _ _ _ h
        refine ⟨?_, h2⟩
        rw [h1]
        simp [hsh]
        rw [rest]
        simp
      · injection h with h
        injection h with hc hg
        rw [← hg]
        refine ⟨?_, rfl⟩
        simp
        rw [rest]
        simp

theorem ensureDeckSize_discard_nil (shuffle : List Card → List Card) (g : UnoGame)
    (h : g.discardPile = []) : ensureDeckSize shuffle g = g := by
  unfold ensureDeckSize
  rw [h]
  split <;> rfl

theorem takeCards_discard_nil (shuffle : List Card → List Card) (n : Nat) :
    ∀ g : UnoGame, g.discardPile = [] → (takeCards shuffle n g).2.discardPile = [] := by
  induction n with
  | zero => intro g h; exact h
  | succ n ih =>
    intro g h
    rw [takeCards_succ, ensureDeckSize_discard_nil shuffle g h]
    split
    · exact h
    · exact ih _ h

theorem dealGo_discard_nil (shuffle : List Card → List Card) (n : Nat) :
    ∀ (i : Nat) (g : UnoGame), g.discardPile = [] →
      (dealGo shuffle n i g).discardPile = [] := by
  induction n with
  | zero => intro i g h; exact h
  | succ n ih =>
    intro i g h
    unfold dealGo
    exact ih (i + 1) _ (takeCards_discard_nil shuffle 7 g h)

theorem start_total (shuffle : List Card → List Card)
    (shufflePower : List PowerCard → List PowerCard)
    (hsh : ∀ l, (shuffle l).length = l.length) (g g1 : UnoGame)
    (h0 : g.hasStarted = false)
    (h : start shuffle shufflePower g = Except.ok g1) :
    totalCards g1 = unshuffledDeck.length := by
  unfold start at h
  rw [if_neg (by simp [h0])] at h
  split at h
  · exact Except.noConfusion h
  · rename_i pair firstCard g3 heq
    injection h with h
    rw [← h]
    rw [totalCards_prepare]
    obtain ⟨hdeck, hplayers⟩ := firstCardGo_spec shuffle hsh _ _ _ _ heq
    have hdeal := dealGo_total shuffle hsh
      (startReset shuffle shufflePower g).players.length 0
      (startReset shuffle shufflePower g) (by simp)
    have hdnil := dealGo_discard_nil shuffle
      (startReset shuffle shufflePower g).players.length 0
      (startReset shuffle shufflePower g) rfl
    have hrd : (startReset shuffle shufflePower g).deck.length = unshuffledDeck.length := by
      show (buildDeck shuffle).length = _
      rw [buildDeck, hsh]
    have hrdp : (startReset shuffle shufflePower g).discardPile.length = 0 := rfl
    simp only [List.take_zero, List.map_nil, List.sum_nil, hrd, hrdp] at hdeal
    simp only [totalCards] at hdeal ⊢
    rw [hdnil] at hdeal
    rw [hplayers]
    simp at hdeal ⊢
    omega

theorem applyAction_total (shuffle : List Card → List Card)
    (shufflePower : List PowerCard → List PowerCard)
    (hsh : ∀ l, (shuffle l).length = l.length) (g g' : UnoGame) (a : EngineAction)
    (h : applyAction shuffle shufflePower g a = Except.ok g') :
    totalCards g' = totalCards g := by
  cases a with
  | play pid cid ch =>
    simp only [applyAction] at h
    split at h
    · exact Except.noConfusion h
    · rename_i res heq
      injection h with h
      rw [← h]
      exact playCard_total shuffle hsh g pid cid ch res heq
  | drawCard pid => exact draw_total shuffle hsh g g' pid h
  | drawPower pid =>
    simp only [applyAction] at h
    split at h
    · exact Except.noConfusion h
    · rename_i res heq
      injection h with h
      rw [← h]
      exact drawPowerCard_total shuffle shufflePower hsh g pid res heq
  | playPower pid payload =>
    simp only [applyAction] at h
    split at h
    · rename_i g2 r heq
      injection h with h
      rw [← h]
      exact playPowerCard_total shuffle hsh g pid payload g2 r heq
    · exact Except.noConfusion h

theorem runActions_total (shuffle : List Card → List Card)
    (shufflePower : List PowerCard → List PowerCard)
    (hsh : ∀ l, (shuffle l).length = l.length) (acts : List EngineAction) :
    ∀ g g' : UnoGame, runActions shuffle shufflePower g acts = Except.ok g' →
      totalCards g' = totalCards g := by
  induction acts with
  | nil =>
    intro g g' h
    injection h with h
    rw [← h]
  | cons a rest ih =>
    intro g g' h
    unfold runActions at h
    split at h
    · exact Except.noConfusion h
    · rename_i g1 heq
      rw [ih g1 g' h, applyAction_total shuffle shufflePower hsh g g1 a heq]

theorem staticDeckSize : unshuffledDeck.length = 108 := by decide

/-- C7: starting from start() and applying any sequence of successful engine
operations (play_card, draw, draw_power_card, play_power_card), the total
number of Cards in all players' hands plus the draw pile plus the discard
pile is unchanged and equals the static deck size of 108.  The Math.random
shuffles are abstracted as length-preserving functions. -/
theorem C7_card_conservation (shuffle : List Card → List Card)
    (shufflePower : List PowerCard → List PowerCard)
    (hsh : ∀ l, (shuffle l).length = l.length)
    (g0 g1 g2 : UnoGame) (acts : List EngineAction)
    (h0 : g0.hasStarted = false)
    (hstart : start shuffle shufflePower g0 = Except.ok g1)
    (hrun : runActions shuffle shufflePower g1 acts = Except.ok g2) :
    totalCards g1 = 108 ∧ totalCards g2 = 108 := by
  have h1 : totalCards g1 = 108 := by
    rw [start_total shuffle shufflePower hsh g0 g1 h0 hstart, staticDeckSize]
  exact ⟨h1, by rw [runActions_total shuffle shufflePower hsh acts g1 g2 hrun, h1]⟩

/-- Witness for C7: the concrete two-player game started with the identity
shuffles satisfies conservation (empty action list). -/
theorem C7_card_conservation_witness : totalCards exG7 = 108 ∧ totalCards exG7 = 108 :=
  C7_card_conservation id id (fun l => rfl) exStart exG7 exG7 [] rfl rfl rfl

/-! ## C6: atomicity of playPowerCard -/

theorem ppc_restore_eq (g : UnoGame) (pid : String) (cardIndex : Nat)
    (powerCard : PowerCard) (player : InternalPlayerState)
    (hp : getPlayer? g pid = some player)
    (hcard : player.powerCards.get? cardIndex = some powerCard) :
    ppcRestored (ppcRemoved g pid cardIndex) pid cardIndex powerCard = g := by
  unfold getPlayer? at hp
  unfold ppcRestored ppcRemoved
  rw [updateFirst_updateFirst]
  show ({ g with
      players :=
        updateFirst g.players pid fun p =>
          { p with
            powerCards :=
              insertAt (p.powerCards.eraseIdx cardIndex) cardIndex powerCard } } :
      UnoGame) = g
  have hfq : ({ player with
      powerCards :=
        insertAt (player.powerCards.eraseIdx cardIndex) cardIndex powerCard } :
        InternalPlayerState) = player := by
    rw [insertAt_eraseIdx player.powerCards cardIndex powerCard hcard]
  rw [updateFirst_eq_self g.players pid _ player hp hfq]
  intro p
  rfl

theorem playPowerCard_err_or_ok (shuffle : List Card → List Card) (g : UnoGame)
    (pid : String) (payload : PlayPowerCardPayload) :
    (playPowerCard shuffle g pid payload).1 = g ∨
      ∃ r, (playPowerCard shuffle g pid payload).2 = Except.ok r := by
  unfold playPowerCard
  split
  · left; rfl
  · split
    · left; rfl
    · split
      · left; rfl
      · split
        · left; rfl
        · split
          · left; rfl
          · split
            · left; rfl
            · rename_i player hp hnA hnP uIdx cardIndex hidx uPC powerCard hcard
              split
              · left
                show ppcRestored (ppcRemoved g pid cardIndex) pid cardIndex powerCard = g
                exact ppc_restore_eq g pid cardIndex powerCard player hp hcard
              · right
                exact ⟨_, rfl⟩

/-- C6: whenever playPowerCard fails — with any of its errors, before or
after the power card was removed from the acting player's inventory — the
resulting engine state is identical to the state before the call: the catch
block re-inserts the card at its original position and no other mutation
precedes any throw. -/
theorem C6_playPowerCard_atomic (shuffle : List Card → List Card) (g : UnoGame)
    (pid : String) (payload : PlayPowerCardPayload) (e : String)
    (h : (playPowerCard shuffle g pid payload).2 = Except.error e) :
    (playPowerCard shuffle g pid payload).1 = g := by
  rcases playPowerCard_err_or_ok shuffle g pid payload with h1 | ⟨r, h2⟩
  · exact h1
  · rw [h2] at h
    exact Except.noConfusion h

/-- Witness for C6: the freeze play without a target fails after the card
removal and leaves the state exactly as before. -/
theorem C6_playPowerCard_atomic_witness :
    (playPowerCard id exG6 "A" ⟨2, none, none⟩).1 = exG6 :=
  C6_playPowerCard_atomic id exG6 "A" ⟨2, none, none⟩
    "Select another player to freeze" rfl

/-! ## C4: playPowerCard never sets winnerId -/

theorem winnerId_of_fixedPart (g h : UnoGame) (he : fixedPart g = fixedPart h) :
    g.winnerId = h.winnerId := by
  unfold fixedPart at he
  simp only [Prod.mk.injEq] at he
  exact he.2.2.2.2.1

theorem cardRushGo_fixed (shuffle : List Card → List Card) (pid : String) :
    ∀ (n i : Nat) (g : UnoGame) (acc : List String),
      fixedPart (cardRushGo shuffle pid n i g acc).1 = fixedPart g := by
  intro n
  induction n with
  | zero => intro i g acc; rfl
  | succ n ih =>
    intro i g acc
    unfold cardRushGo
    split
    · rfl
    · split
      · exact ih (i + 1) g acc
      · split
        · exact (ih _ _ _).trans (fixedPart_takeCards shuffle 2 g)
        · exact (ih _ _ _).trans (fixedPart_takeCards shuffle 2 g)

theorem powerCardEffect_winnerId (shuffle : List Card → List Card) (g : UnoGame)
    (pid : String) (actor : InternalPlayerState) (powerCard : PowerCard)
    (payload : PlayPowerCardPayload) (g1 : UnoGame) (aff : List String)
    (h : powerCardEffect shuffle g pid actor powerCard payload = Except.ok (g1, aff)) :
    g1.winnerId = g.winnerId := by
  unfold powerCardEffect at h
  split at h
  · have hw := congrArg (fun r : Except String (UnoGame × List String) =>
      match r with
      | Except.ok pr => pr.1.winnerId
      | Except.error _ => g.winnerId) h
    exact hw.symm.trans
      (winnerId_of_fixedPart _ g (cardRushGo_fixed shuffle pid g.players.length 0 g []))
  · split at h
    · exact Except.noConfusion h
    · split at h
      · exact Except.noConfusion h
      · split at h
        · exact Except.noConfusion h
        · have hw := congrArg (fun r : Except String (UnoGame × List String) =>
            match r with
            | Except.ok pr => pr.1.winnerId
            | Except.error _ => g.winnerId) h
          exact hw.symm.trans rfl
  · split at h
    · exact Except.noConfusion h
    · split at h
      · exact Except.noConfusion h
      · split at h
        · exact Except.noConfusion h
        · have hw := congrArg (fun r : Except String (UnoGame × List String) =>
            match r with
            | Except.ok pr => pr.1.winnerId
            | Except.error _ => g.winnerId) h
          exact hw.symm.trans rfl
  · split at h
    · exact Except.noConfusion h
    · split at h
      · exact Except.noConfusion h
      · split at h
        · exact Except.noConfusion h
        · have hw := congrArg (fun r : Except String (UnoGame × List String) =>
            match r with
            | Except.ok pr => pr.1.winnerId
            | Except.error _ => g.winnerId) h
          exact hw.symm.trans rfl

/-- C4 counterexample: in exG4 player A holds the single regular card red-3
and the colorRush power card.  Playing colorRush on red succeeds, empties
A's hand, yet winnerId stays none: the source's playPowerCard has no win
check after its effects. -/
theorem C4_counterexample :
    (match (playPowerCard id exG4 "A" ⟨1, none, some CardColor.red⟩).2 with
      | Except.ok _ => true
      | Except.error _ => false) = true ∧
    (match getPlayer? (playPowerCard id exG4 "A" ⟨1, none, some CardColor.red⟩).1 "A" with
      | some p => p.hand
      | none => [⟨0, CardColor.red, CardValue.num 0⟩]) = [] ∧
    (playPowerCard id exG4 "A" ⟨1, none, some CardColor.red⟩).1.winnerId = none := by
  refine ⟨rfl, by decide, rfl⟩

/-- C4 (amended): playPowerCard never sets winnerId at all — even when a
colorRush or swapHands play leaves the acting player's hand empty, winnerId
is exactly what it was before the call.  The spec's adopted treat-as-win
behavior is absent from the source. -/
theorem C4_playPowerCard_winnerId (shuffle : List Card → List Card) (g : UnoGame)
    (pid : String) (payload : PlayPowerCardPayload) :
    (playPowerCard shuffle g pid payload).1.winnerId = g.winnerId := by
  unfold playPowerCard
  split
  · rfl
  · split
    · rfl
    · split
      · rfl
      · split
        · rfl
        · split
          · rfl
          · split
            · rfl
            · rename_i player hp hnA hnP uIdx cardIndex hidx uPC powerCard hcard
              split
              · rfl
              · rename_i geff affected heff
                show geff.winnerId = g.winnerId
                exact powerCardEffect_winnerId shuffle (ppcRemoved g pid cardIndex) pid
                  player powerCard payload geff affected heff

/-! ## C10: playPowerCard frame -/

theorem discardRel_trans (a b c : List Card) (h1 : discardRel a b) (h2 : discardRel b c) :
    discardRel a c := by
  rcases h1 with rfl | ⟨t, ht, rfl⟩
  · exact h2
  · rcases h2 with rfl | ⟨t2, ht2, rfl⟩
    · exact Or.inr ⟨t, ht, rfl⟩
    · simp only [List.getLast?_singleton, Option.some.injEq] at ht2
      subst ht2
      exact Or.inr ⟨t, ht, rfl⟩

theorem ensureDeckSize_discardRel (shuffle : List Card → List Card) (g : UnoGame) :
    discardRel g.discardPile (ensureDeckSize shuffle g).discardPile := by
  unfold ensureDeckSize
  split
  · split
    · exact Or.inl rfl
    · rename_i top hlast
      exact Or.inr ⟨top, hlast, rfl⟩
  · exact Or.inl rfl

theorem takeCards_discardRel (shuffle : List Card → List Card) (n : Nat) :
    ∀ g : UnoGame, discardRel g.discardPile (takeCards shuffle n g).2.discardPile := by
  induction n with
  | zero => intro g; exact Or.inl rfl
  | succ n ih =>
    intro g
    rw [takeCards_succ]
    split
    · exact ensureDeckSize_discardRel shuffle g
    · exact discardRel_trans _ _ _ (ensureDeckSize_discardRel shuffle g) (ih _)

theorem cardRushGo_frame (shuffle : List Card → List Card) (pid : String) :
    ∀ (n i : Nat) (g : UnoGame) (acc : List String),
      (cardRushGo shuffle pid n i g acc).1.currentPlayerIndex = g.currentPlayerIndex ∧
      (cardRushGo shuffle pid n i g acc).1.drawStack = g.drawStack ∧
      discardRel g.discardPile (cardRushGo shuffle pid n i g acc).1.discardPile := by
  intro n
  induction n with
  | zero => intro i g acc; exact ⟨rfl, rfl, Or.inl rfl⟩
  | succ n ih =>
    intro i g acc
    unfold cardRushGo
    split
    · exact ⟨rfl, rfl, Or.inl rfl⟩
    · split
      · exact ih (i + 1) g acc
      · split
        · refine ⟨?_, ?_, ?_⟩
          · exact ((ih _ _ _).1).trans (index_takeCards shuffle 2 g)
          · exact ((ih _ _ _).2.1).trans (drawStack_takeCards shuffle 2 g)
          · exact discardRel_trans _ _ _ (takeCards_discardRel shuffle 2 g) ((ih _ _ _).2.2)
        · refine ⟨?_, ?_, ?_⟩
          · exact ((ih _ _ _).1).trans (index_takeCards shuffle 2 g)
          · exact ((ih _ _ _).2.1).trans (drawStack_takeCards shuffle 2 g)
          · exact discardRel_trans _ _ _ (takeCards_discardRel shuffle 2 g) ((ih _ _ _).2.2)

theorem powerCardEffect_frame (shuffle : List Card → List Card) (g : UnoGame)
    (pid : String) (actor : InternalPlayerState) (powerCard : PowerCard)
    (payload : PlayPowerCardPayload) (g1 : UnoGame) (aff : List String)
    (h : powerCardEffect shuffle g pid actor powerCard payload = Except.ok (g1, aff)) :
    fixedPart g1 = fixedPart g ∧
    g1.currentPlayerIndex = g.currentPlayerIndex ∧
    g1.drawStack = g.drawStack ∧
    discardRel g.discardPile g1.discardPile := by
  unfold powerCardEffect at h
  split at h
  · injection h with h1
    have h2 : (cardRushGo shuffle pid g.players.length 0 g []).1 = g1 := by rw [h1]
    subst h2
    exact ⟨cardRushGo_fixed shuffle pid g.players.length 0 g [],
      cardRushGo_frame shuffle pid g.players.length 0 g []⟩
  · split at h
    · exact Except.noConfusion h
    · split at h
      · exact Except.noConfusion h
      · split at h
        · exact Except.noConfusion h
        · injection h with h1
          simp only [Prod.mk.injEq] at h1
          obtain ⟨h2, h3⟩ := h1
          subst h2
          exact ⟨rfl, rfl, rfl, Or.inl rfl⟩
  · split at h
    · exact Except.noConfusion h
    · split at h
      · exact Except.noConfusion h
      · split at h
        · exact Except.noConfusion h
        · injection h with h1
          simp only [Prod.mk.injEq] at h1
          obtain ⟨h2, h3⟩ := h1
          subst h2
          exact ⟨rfl, rfl, rfl, Or.inl rfl⟩
  · split at h
    · exact Except.noConfusion h
    · split at h
      · exact Except.noConfusion h
      · split at h
        · exact Except.noConfusion h
        · injection h with h1
          simp only [Prod.mk.injEq] at h1
          obtain ⟨h2, h3⟩ := h1
          subst h2
          exact ⟨rfl, rfl, rfl, Or.inl rfl⟩

/-- C10 counterexample: in exG10 the deck is empty and the discard pile
holds two cards; a successful cardRush play replenishes the deck from the
discard pile, leaving the discard pile as only its former top card — the
discard pile is NOT left unchanged by a successful playPowerCard. -/
theorem C10_counterexample :
    (match (playPowerCard id exG10 "A" ⟨3, none, none⟩).2 with
      | Except.ok _ => true
      | Except.error _ => false) = true ∧
    (playPowerCard id exG10 "A" ⟨3, none, none⟩).1.discardPile =
      [⟨51, CardColor.red, CardValue.num 5⟩] ∧
    exG10.discardPile =
      [⟨50, CardColor.green, CardValue.num 2⟩, ⟨51, CardColor.red, CardValue.num 5⟩] := by
  refine ⟨rfl, by decide, by decide⟩

/-- C10 (amended): playPowerCard never advances the turn and never touches
the turn machinery: for every call (in particular every successful one) the
returned state keeps currentPlayerIndex, direction, currentColor and
drawStack exactly as before, and the discard pile is either unchanged or —
when a cardRush draw forced a replenishment — reduced to exactly its former
top card.  Hands, power inventories, frozen counters and the draw pile are
the only parts that may otherwise change, and the cursor never moves, so
the acting player must still play a regular card or draw. -/
theorem C10_playPowerCard_frame (shuffle : List Card → List Card) (g : UnoGame)
    (pid : String) (payload : PlayPowerCardPayload) :
    (playPowerCard shuffle g pid payload).1.currentPlayerIndex = g.currentPlayerIndex ∧
    (playPowerCard shuffle g pid payload).1.direction = g.direction ∧
    (playPowerCard shuffle g pid payload).1.currentColor = g.currentColor ∧
    (playPowerCard shuffle g pid payload).1.drawStack = g.drawStack ∧
    ((playPowerCard shuffle g pid payload).1.discardPile = g.discardPile ∨
      ∃ t, g.discardPile.getLast? = some t ∧
        (playPowerCard shuffle g pid payload).1.discardPile = [t]) := by
  unfold playPowerCard
  split
  · exact ⟨rfl, rfl, rfl, rfl, Or.inl rfl⟩
  · split
    · exact ⟨rfl, rfl, rfl, rfl, Or.inl rfl⟩
    · split
      · exact ⟨rfl, rfl, rfl, rfl, Or.inl rfl⟩
      · split
        · exact ⟨rfl, rfl, rfl, rfl, Or.inl rfl⟩
        · split
          · exact ⟨rfl, rfl, rfl, rfl, Or.inl rfl⟩
          · split
            · exact ⟨rfl, rfl, rfl, rfl, Or.inl rfl⟩
            · rename_i player hp hnA hnP uIdx cardIndex hidx uPC powerCard hcard
              split
              · exact ⟨rfl, rfl, rfl, rfl, Or.inl rfl⟩
              · rename_i geff affected heff
                obtain ⟨hfix, hidx2, hds, hdr⟩ :=
                  powerCardEffect_frame shuffle (ppcRemoved g pid cardIndex) pid
                    player powerCard payload geff affected heff
                have hdirc : geff.direction = g.direction := by
                  unfold fixedPart at hfix
                  simp only [Prod.mk.injEq] at hfix
                  exact hfix.2.1
                have hcol : geff.currentColor = g.currentColor := by
                  unfold fixedPart at hfix
                  simp only [Prod.mk.injEq] at hfix
                  exact hfix.2.2.1
                exact ⟨hidx2, hdirc, hcol, hds, hdr⟩

/-! ## C2: wild plays and the chosen color -/

theorem playCardEffect_currentColor (g : UnoGame) (card : Card) :
    (playCardEffect g card).currentColor = g.currentColor := by
  unfold playCardEffect
  split <;> rfl

theorem pcG2_currentColor (g : UnoGame) (pid : String) (player : InternalPlayerState)
    (card : Card) (i : Nat) (rc : Option CardColor) :
    (pcG2 g pid player card i rc).currentColor =
      if card.color = CardColor.wild then rc.getD g.currentColor else card.color := rfl

theorem pcG4_currentColor (g : UnoGame) (pid : String) (player : InternalPlayerState)
    (card : Card) (i : Nat) (rc : Option CardColor) :
    (pcG4 g pid player card i rc).currentColor =
      (pcG2 g pid player card i rc).currentColor :=
  playCardEffect_currentColor (pcG2 g pid player card i rc) card

theorem pcG5_currentColor (g : UnoGame) (pid : String) (player : InternalPlayerState)
    (card : Card) (i : Nat) (rc : Option CardColor) :
    (pcG5 g pid player card i rc).currentColor =
      (pcG2 g pid player card i rc).currentColor := by
  unfold pcG5
  split
  · exact pcG4_currentColor g pid player card i rc
  · exact pcG4_currentColor g pid player card i rc

theorem evaluate_currentColor (g : UnoGame) (pid : String) (k : Nat) :
    ((evaluatePowerDrawRequirement g pid k).1).currentColor = g.currentColor := by
  simp only [evaluatePowerDrawRequirement]
  split
  · rfl
  · split
    · split <;> rfl
    · rfl

theorem currentColor_of_fixedPart (g h : UnoGame) (he : fixedPart g = fixedPart h) :
    g.currentColor = h.currentColor := by
  unfold fixedPart at he
  simp only [Prod.mk.injEq] at he
  exact he.2.2.1

/-- C2 counterexample: the engine accepts chosenColor = wild for a wild card
(the source only checks that some color was supplied), and installs it: the
resulting in-progress state has currentColor = wild, violating I2. -/
theorem C2_counterexample :
    (match playCard id exG2 "A" 10 (some CardColor.wild) with
      | Except.ok (g1, _) => some g1.currentColor
      | Except.error _ => none) = some CardColor.wild := by decide

/-- C2 (amended): for a wild-colored card the operation fails exactly when
NO chosen color was supplied (error "Wild cards require a chosen color");
when any chosen color is supplied — including wild itself — the play is
accepted and the new currentColor is the supplied color verbatim.  The
claimed restriction to red/yellow/green/blue is absent from the source, and
consequently a reachable in-progress state can have currentColor = wild. -/
theorem C2_playCard_wild (shuffle : List Card → List Card) (g : UnoGame)
    (pid : String) (cid : Nat) (player : InternalPlayerState) (cardIndex : Nat)
    (card : Card) (topCard : Card) (c : CardColor) (g1 : UnoGame) (r : PlayCardResult)
    (hT : ensureTurn g pid = Except.ok ())
    (hp : getPlayer? g pid = some player)
    (hA : player.isAwaitingPowerDraw = false)
    (hidx : findIndex (fun cd => cd.id = cid) player.hand = some cardIndex)
    (hcard : player.hand.get? cardIndex = some card)
    (hTop : getTopCard? g = some topCard)
    (hwild : card.color = CardColor.wild)
    (hok : playCard shuffle g pid cid (some c) = Except.ok (g1, r)) :
    playCard shuffle g pid cid none = Except.error "Wild cards require a chosen color" ∧
    g1.currentColor = c := by
  constructor
  · unfold playCard
    simp only [hT, hp, hA, hidx, hcard, hTop, hwild]
    simp
  · unfold playCard at hok
    simp only [hT, hp, hidx, hcard, hTop] at hok
    have hRC : (if card.color = CardColor.wild then some c else some card.color) = some c := by
      rw [hwild]
      simp
    rw [hRC, hA] at hok
    rw [if_neg (show ¬(false = true) by simp)] at hok
    rw [if_neg
      (show ¬(card.color = CardColor.wild ∧ (some c : Option CardColor) = none) by simp)] at hok
    rw [if_neg (show ¬(canPlayCard card topCard g.currentColor g.drawStack = false) by
      simp [canPlayCard, hwild])] at hok
    split at hok
    · injection hok with h1
      simp only [Prod.mk.injEq] at h1
      obtain ⟨h2, h3⟩ := h1
      subst h2
      simp only [pcG4_currentColor, pcG2_currentColor, hwild]
      simp
    · split at hok
      · injection hok with h1
        simp only [Prod.mk.injEq] at h1
        obtain ⟨h2, h3⟩ := h1
        subst h2
        simp only [evaluate_currentColor, pcG5_currentColor, pcG2_currentColor, hwild]
        simp
      · split at hok
        · exact Except.noConfusion hok
        · rename_i g6 hadv
          injection hok with h1
          simp only [Prod.mk.injEq] at h1
          obtain ⟨h2, h3⟩ := h1
          subst h2
          rw [currentColor_of_fixedPart g6 _ (advanceTurn_fixed shuffle _ g6 _ hadv)]
          simp only [evaluate_currentColor, pcG5_currentColor, pcG2_currentColor, hwild]
          simp

/-- Witness for C2: in exG2 player A plays the wild card; with no chosen
color the call fails with the wild-color error, and with chosenColor = wild
the accepted play installs currentColor = wild. -/
theorem C2_playCard_wild_witness :
    playCard id exG2 "A" 10 none = Except.error "Wild cards require a chosen color" ∧
    (okP (playCard id exG2 "A" 10 (some CardColor.wild))
        (exG2,
          { penaltyApplied := false, winnerId := none,
            powerDrawRequired := false })).1.currentColor = CardColor.wild :=
  C2_playCard_wild id exG2 "A" 10
    (mkPlayer "A" [⟨10, CardColor.wild, CardValue.wild⟩, ⟨11, CardColor.red, CardValue.num 3⟩])
    0 ⟨10, CardColor.wild, CardValue.wild⟩ ⟨13, CardColor.red, CardValue.num 5⟩
    CardColor.wild
    (okP (playCard id exG2 "A" 10 (some CardColor.wild))
      (exG2, { penaltyApplied := false, winnerId := none, powerDrawRequired := false })).1
    (okP (playCard id exG2 "A" 10 (some CardColor.wild))
      (exG2, { penaltyApplied := false, winnerId := none, powerDrawRequired := false })).2
    rfl rfl rfl rfl rfl rfl rfl rfl

/-! ## C3: winning playCard -/

theorem playCardEffect_index (g : UnoGame) (card : Card) :
    (playCardEffect g card).currentPlayerIndex = g.currentPlayerIndex := by
  unfold playCardEffect
  split <;> rfl

theorem playCardEffect_ppdp (g : UnoGame) (card : Card) :
    (playCardEffect g card).pendingPowerDrawPlayerId = g.pendingPowerDrawPlayerId := by
  unfold playCardEffect
  split <;> rfl

theorem playCardEffect_players (g : UnoGame) (card : Card) :
    (playCardEffect g card).players = g.players := by
  unfold playCardEffect
  split <;> rfl

theorem playCardEffect_drawStack_congr (g1 g2 : UnoGame) (card : Card)
    (h : g1.drawStack = g2.drawStack) :
    (playCardEffect g1 card).drawStack = (playCardEffect g2 card).drawStack := by
  cases hcv : card.value <;> simp [playCardEffect, hcv, h]

theorem playCardEffect_direction_congr (g1 g2 : UnoGame) (card : Card)
    (h : g1.direction = g2.direction) :
    (playCardEffect g1 card).direction = (playCardEffect g2 card).direction := by
  cases hcv : card.value <;> simp [playCardEffect, hcv, h]

theorem pcG4_index (g : UnoGame) (pid : String) (player : InternalPlayerState)
    (card : Card) (i : Nat) (rc : Option CardColor) :
    (pcG4 g pid player card i rc).currentPlayerIndex = g.currentPlayerIndex :=
  playCardEffect_index (pcG2 g pid player card i rc) card

theorem pcG4_ppdp (g : UnoGame) (pid : String) (player : InternalPlayerState)
    (card : Card) (i : Nat) (rc : Option CardColor) :
    (pcG4 g pid player card i rc).pendingPowerDrawPlayerId = g.pendingPowerDrawPlayerId :=
  playCardEffect_ppdp (pcG2 g pid player card i rc) card

theorem pcG4_powerPoints_map (g : UnoGame) (pid : String) (player : InternalPlayerState)
    (card : Card) (i : Nat) (rc : Option CardColor) :
    (pcG4 g pid player card i rc).players.map (fun q => q.powerPoints) =
      g.players.map (fun q => q.powerPoints) := by
  have h1 : (pcG4 g pid player card i rc).players =
      updateFirst (playCardEffect (pcG2 g pid player card i rc) card).players pid
        (fun p => { p with hasCalledUno := (player.hand.eraseIdx i).length == 1 }) := rfl
  rw [h1,
    map_updateFirst_eq _ pid
      (fun p => { p with hasCalledUno := (player.hand.eraseIdx i).length == 1 })
      (fun q => q.powerPoints) (fun p => rfl),
    playCardEffect_players]
  have h2 : (pcG2 g pid player card i rc).players =
      updateFirst g.players pid (fun p => { p with hand := player.hand.eraseIdx i }) := rfl
  rw [h2,
    map_updateFirst_eq _ pid
      (fun p => { p with hand := player.hand.eraseIdx i })
      (fun q => q.powerPoints) (fun p => rfl)]

/-- C3 counterexample: in exG3 player A wins by playing the lone blue draw2.
winnerId is set, but the card's effect was applied before the win check: the
draw stack is 2 afterwards, not 0 — effect resolution is NOT skipped. -/
theorem C3_counterexample :
    (match playCard id exG3 "A" 20 none with
      | Except.ok (g1, _) => some (g1.drawStack, g1.winnerId)
      | Except.error _ => none) = some (2, some "A") := by decide

/-- C3 (amended): a successful playCard that empties the acting player's
hand sets winnerId to that player in the state and in the result, and skips
the power-meter bookkeeping and the turn advance (currentPlayerIndex and
pendingPowerDrawPlayerId are untouched, no power points accrue) — but the
played card's effect has already been applied: the resulting drawStack and
direction are those of playCardEffect, and the color change was installed
(cf. C2's theorem).  Only the steps AFTER the win check are skipped. -/
theorem C3_playCard_win (shuffle : List Card → List Card) (g : UnoGame) (pid : String)
    (cid : Nat) (chosen : Option CardColor) (player : InternalPlayerState)
    (cardIndex : Nat) (card : Card) (g1 : UnoGame) (r : PlayCardResult)
    (hp : getPlayer? g pid = some player)
    (hidx : findIndex (fun cd => cd.id = cid) player.hand = some cardIndex)
    (hcard : player.hand.get? cardIndex = some card)
    (herase : (player.hand.eraseIdx cardIndex).length = 0)
    (hok : playCard shuffle g pid cid chosen = Except.ok (g1, r)) :
    g1.winnerId = some pid ∧ r.winnerId = some pid ∧ r.powerDrawRequired = false ∧
    g1.currentPlayerIndex = g.currentPlayerIndex ∧
    g1.pendingPowerDrawPlayerId = g.pendingPowerDrawPlayerId ∧
    g1.players.map (fun q => q.powerPoints) = g.players.map (fun q => q.powerPoints) ∧
    g1.drawStack = (playCardEffect g card).drawStack ∧
    g1.direction = (playCardEffect g card).direction := by
  unfold playCard at hok
  split at hok
  · exact Except.noConfusion hok
  · split at hok
    · exact Except.noConfusion hok
    · rename_i player1 hp1
      rw [hp] at hp1
      injection hp1 with hp1
      subst hp1
      split at hok
      · exact Except.noConfusion hok
      · split at hok
        · exact Except.noConfusion hok
        · rename_i cardIndex1 hidx1
          rw [hidx] at hidx1
          injection hidx1 with hidx1
          subst hidx1
          split at hok
          · exact Except.noConfusion hok
          · rename_i card1 hcard1
            rw [hcard] at hcard1
            injection hcard1 with hcard1
            subst hcard1
            split at hok
            · exact Except.noConfusion hok
            · rename_i topCard hTop1
              by_cases hw : card.color = CardColor.wild
              · rw [if_pos hw] at hok
                by_cases hB : card.color = CardColor.wild ∧ chosen = none
                · rw [if_pos hB] at hok
                  exact Except.noConfusion hok
                · rw [if_neg hB] at hok
                  by_cases hC : canPlayCard card topCard g.currentColor g.drawStack = false
                  · rw [if_pos hC] at hok
                    exact Except.noConfusion hok
                  · rw [if_neg hC] at hok
                    rw [if_pos herase] at hok
                    injection hok with h1
                    simp only [Prod.mk.injEq] at h1
                    obtain ⟨h2, h3⟩ := h1
                    subst h2
                    subst h3
                    refine ⟨rfl, rfl, rfl, ?_, ?_, ?_, ?_, ?_⟩
                    · exact pcG4_index g pid player card cardIndex _
                    · exact pcG4_ppdp g pid player card cardIndex _
                    · exact pcG4_powerPoints_map g pid player card cardIndex _
                    · exact playCardEffect_drawStack_congr
                        (pcG2 g pid player card cardIndex chosen) g card rfl
                    · exact playCardEffect_direction_congr
                        (pcG2 g pid player card cardIndex chosen) g card rfl
              · rw [if_neg hw] at hok
                by_cases hB : card.color = CardColor.wild ∧ (some card.color : Option CardColor) = none
                · rw [if_pos hB] at hok
                  exact Except.noConfusion hok
                · rw [if_neg hB] at hok
                  by_cases hC : canPlayCard card topCard g.currentColor g.drawStack = false
                  · rw [if_pos hC] at hok
                    exact Except.noConfusion hok
                  · rw [if_neg hC] at hok
                    rw [if_pos herase] at hok
                    injection hok with h1
                    simp only [Prod.mk.injEq] at h1
                    obtain ⟨h2, h3⟩ := h1
                    subst h2
                    subst h3
                    refine ⟨rfl, rfl, rfl, ?_, ?_, ?_, ?_, ?_⟩
                    · exact pcG4_index g pid player card cardIndex _
                    · exact pcG4_ppdp g pid player card cardIndex _
                    · exact pcG4_powerPoints_map g pid player card cardIndex _
                    · exact playCardEffect_drawStack_congr
                        (pcG2 g pid player card cardIndex (some card.color)) g card rfl
                    · exact playCardEffect_direction_congr
                        (pcG2 g pid player card cardIndex (some card.color)) g card rfl

/-- Witness for C3: the winning draw2 play in exG3. -/
theorem C3_playCard_win_witness :
    exR3.1.winnerId = some "A" ∧ exR3.2.winnerId = some "A" ∧
    exR3.2.powerDrawRequired = false ∧
    exR3.1.currentPlayerIndex = exG3.currentPlayerIndex ∧
    exR3.1.pendingPowerDrawPlayerId = exG3.pendingPowerDrawPlayerId ∧
    exR3.1.players.map (fun q => q.powerPoints) =
      exG3.players.map (fun q => q.powerPoints) ∧
    exR3.1.drawStack =
      (playCardEffect exG3 ⟨20, CardColor.blue, CardValue.draw2⟩).drawStack ∧
    exR3.1.direction =
      (playCardEffect exG3 ⟨20, CardColor.blue, CardValue.draw2⟩).direction :=
  C3_playCard_win id exG3 "A" 20 none
    (mkPlayer "A" [⟨20, CardColor.blue, CardValue.draw2⟩]) 0
    ⟨20, CardColor.blue, CardValue.draw2⟩ exR3.1 exR3.2 rfl rfl rfl rfl rfl

/-! ## C9: draw -/

theorem direction_takeCards (shuffle : List Card → List Card) (n : Nat) (g : UnoGame) :
    (takeCards shuffle n g).2.direction = g.direction := by
  obtain ⟨d, dp, h⟩ := takeCards_eq shuffle n g
  rw [h]

/-- C9 counterexample: in exG9 the deck is empty and the discard pile holds
a single card, so the replenishment has nothing to move; a plain draw yields
ZERO cards — the hand stays at one card instead of growing to two — while
the turn still advances.  draw does not always deal the full amount. -/
theorem C9_counterexample :
    (match draw id exG9 "A" with
      | Except.ok g1 =>
        some ((match getPlayer? g1 "A" with
          | some q => q.hand.length
          | none => 99), g1.currentPlayerIndex)
      | Except.error _ => none) = some (1, 1) := by decide

/-- C9 (amended): when it is the player's turn, they are not awaiting a
power draw and nobody is frozen, draw succeeds and the player receives
exactly min(amount, available) cards, where amount is draw_stack when
draw_stack > 0 and 1 otherwise, and available counts the draw pile plus the
discard pile less its protected top card — fewer than amount when the piles
are exhausted.  hasCalledUno is cleared, the resulting draw stack is 0, and
the turn advances by exactly one step (direction preserved). -/
theorem C9_draw (shuffle : List Card → List Card) (g : UnoGame) (pid : String)
    (player : InternalPlayerState)
    (hsh : ∀ l, (shuffle l).length = l.length)
    (hT : ensureTurn g pid = Except.ok ())
    (hp : getPlayer? g pid = some player)
    (hA : player.isAwaitingPowerDraw = false)
    (hnf : noFrozen g) :
    ∃ g1 q, draw shuffle g pid = Except.ok g1 ∧
      getPlayer? g1 pid = some q ∧
      q.hand.length = player.hand.length +
        min (if g.drawStack > 0 then g.drawStack else 1)
          (g.deck.length + (g.discardPile.length - 1)) ∧
      q.hasCalledUno = false ∧
      q.pendingSkipCount = none ∧
      g1.drawStack = 0 ∧
      g1.currentPlayerIndex =
        stepIndex g.players.length g.direction g.currentPlayerIndex 1 ∧
      g1.direction = g.direction := by
  have hlen0 : ¬(g.players.length = 0) := by
    cases hps : g.players with
    | nil =>
      unfold getPlayer? at hp
      rw [hps] at hp
      exact Option.noConfusion hp
    | cons a as => simp [hps]
  by_cases hpen : g.drawStack > 0
  · rw [if_pos hpen]
    have hdraw : draw shuffle g pid = advanceTurn shuffle { { (takeCards shuffle g.drawStack g).2 with players := updateFirst (takeCards shuffle g.drawStack g).2.players pid (fun p2 : InternalPlayerState => { p2 with hand := p2.hand ++ (takeCards shuffle g.drawStack g).1, hasCalledUno := false, pendingSkipCount := none }), pendingHandSyncs := markHandDirty (takeCards shuffle g.drawStack g).2.pendingHandSyncs pid } with drawStack := 0 } 1 := by
      unfold draw
      simp only [hT, hp, hA]
      rw [if_neg (show ¬(false = true) by simp)]
      simp only [if_pos hpen]
    have hnfG1 : noFrozen { (takeCards shuffle g.drawStack g).2 with players := updateFirst (takeCards shuffle g.drawStack g).2.players pid (fun p2 : InternalPlayerState => { p2 with hand := p2.hand ++ (takeCards shuffle g.drawStack g).1, hasCalledUno := false, pendingSkipCount := none }), pendingHandSyncs := markHandDirty (takeCards shuffle g.drawStack g).2.pendingHandSyncs pid } := by
      intro q hq
      rcases mem_updateFirst (takeCards shuffle g.drawStack g).2.players pid (fun p2 : InternalPlayerState => { p2 with hand := p2.hand ++ (takeCards shuffle g.drawStack g).1, hasCalledUno := false, pendingSkipCount := none }) q hq with h1 | ⟨p2, hpm, rfl⟩
      · rw [players_takeCards] at h1
        exact hnf q h1
      · rw [players_takeCards] at hpm
        exact hnf p2 hpm
    have hnfG2 : noFrozen { { (takeCards shuffle g.drawStack g).2 with players := updateFirst (takeCards shuffle g.drawStack g).2.players pid (fun p2 : InternalPlayerState => { p2 with hand := p2.hand ++ (takeCards shuffle g.drawStack g).1, hasCalledUno := false, pendingSkipCount := none }), pendingHandSyncs := markHandDirty (takeCards shuffle g.drawStack g).2.pendingHandSyncs pid } with drawStack := 0 } := fun q hq => hnfG1 q hq
    have hadv : draw shuffle g pid =
        Except.ok (prepareCurrentPlayerForTurn (moveSteps { { (takeCards shuffle g.drawStack g).2 with players := updateFirst (takeCards shuffle g.drawStack g).2.players pid (fun p2 : InternalPlayerState => { p2 with hand := p2.hand ++ (takeCards shuffle g.drawStack g).1, hasCalledUno := false, pendingSkipCount := none }), pendingHandSyncs := markHandDirty (takeCards shuffle g.drawStack g).2.pendingHandSyncs pid } with drawStack := 0 } 1)) :=
      hdraw.trans (advanceTurn_noFrozen shuffle { { (takeCards shuffle g.drawStack g).2 with players := updateFirst (takeCards shuffle g.drawStack g).2.players pid (fun p2 : InternalPlayerState => { p2 with hand := p2.hand ++ (takeCards shuffle g.drawStack g).1, hasCalledUno := false, pendingSkipCount := none }), pendingHandSyncs := markHandDirty (takeCards shuffle g.drawStack g).2.pendingHandSyncs pid } with drawStack := 0 } 1 hnfG2)
    have hlenG2 : ({ { (takeCards shuffle g.drawStack g).2 with players := updateFirst (takeCards shuffle g.drawStack g).2.players pid (fun p2 : InternalPlayerState => { p2 with hand := p2.hand ++ (takeCards shuffle g.drawStack g).1, hasCalledUno := false, pendingSkipCount := none }), pendingHandSyncs := markHandDirty (takeCards shuffle g.drawStack g).2.pendingHandSyncs pid } with drawStack := 0 }).players.length = g.players.length := by
      show (updateFirst (takeCards shuffle g.drawStack g).2.players pid (fun p2 : InternalPlayerState => { p2 with hand := p2.hand ++ (takeCards shuffle g.drawStack g).1, hasCalledUno := false, pendingSkipCount := none })).length = g.players.length
      rw [updateFirst_length, players_takeCards]
    have hlen2ne : ¬(({ { (takeCards shuffle g.drawStack g).2 with players := updateFirst (takeCards shuffle g.drawStack g).2.players pid (fun p2 : InternalPlayerState => { p2 with hand := p2.hand ++ (takeCards shuffle g.drawStack g).1, hasCalledUno := false, pendingSkipCount := none }), pendingHandSyncs := markHandDirty (takeCards shuffle g.drawStack g).2.pendingHandSyncs pid } with drawStack := 0 }).players.length = 0) := by
      rw [hlenG2]
      exact hlen0
    have hms2 : moveSteps { { (takeCards shuffle g.drawStack g).2 with players := updateFirst (takeCards shuffle g.drawStack g).2.players pid (fun p2 : InternalPlayerState => { p2 with hand := p2.hand ++ (takeCards shuffle g.drawStack g).1, hasCalledUno := false, pendingSkipCount := none }), pendingHandSyncs := markHandDirty (takeCards shuffle g.drawStack g).2.pendingHandSyncs pid } with drawStack := 0 } 1 =
        { { { (takeCards shuffle g.drawStack g).2 with players := updateFirst (takeCards shuffle g.drawStack g).2.players pid (fun p2 : InternalPlayerState => { p2 with hand := p2.hand ++ (takeCards shuffle g.drawStack g).1, hasCalledUno := false, pendingSkipCount := none }), pendingHandSyncs := markHandDirty (takeCards shuffle g.drawStack g).2.pendingHandSyncs pid } with drawStack := 0 } with
          currentPlayerIndex :=
            stepIndex ({ { (takeCards shuffle g.drawStack g).2 with players := updateFirst (takeCards shuffle g.drawStack g).2.players pid (fun p2 : InternalPlayerState => { p2 with hand := p2.hand ++ (takeCards shuffle g.drawStack g).1, hasCalledUno := false, pendingSkipCount := none }), pendingHandSyncs := markHandDirty (takeCards shuffle g.drawStack g).2.pendingHandSyncs pid } with drawStack := 0 }).players.length ({ { (takeCards shuffle g.drawStack g).2 with players := updateFirst (takeCards shuffle g.drawStack g).2.players pid (fun p2 : InternalPlayerState => { p2 with hand := p2.hand ++ (takeCards shuffle g.drawStack g).1, hasCalledUno := false, pendingSkipCount := none }), pendingHandSyncs := markHandDirty (takeCards shuffle g.drawStack g).2.pendingHandSyncs pid } with drawStack := 0 }).direction
              ({ { (takeCards shuffle g.drawStack g).2 with players := updateFirst (takeCards shuffle g.drawStack g).2.players pid (fun p2 : InternalPlayerState => { p2 with hand := p2.hand ++ (takeCards shuffle g.drawStack g).1, hasCalledUno := false, pendingSkipCount := none }), pendingHandSyncs := markHandDirty (takeCards shuffle g.drawStack g).2.pendingHandSyncs pid } with drawStack := 0 }).currentPlayerIndex 1 } := by
      unfold moveSteps
      rw [if_neg hlen2ne]
    have hdirG2 : ({ { (takeCards shuffle g.drawStack g).2 with players := updateFirst (takeCards shuffle g.drawStack g).2.players pid (fun p2 : InternalPlayerState => { p2 with hand := p2.hand ++ (takeCards shuffle g.drawStack g).1, hasCalledUno := false, pendingSkipCount := none }), pendingHandSyncs := markHandDirty (takeCards shuffle g.drawStack g).2.pendingHandSyncs pid } with drawStack := 0 }).direction = g.direction := by
      show (takeCards shuffle g.drawStack g).2.direction = g.direction
      exact direction_takeCards shuffle _ g
    have hidxG2 : ({ { (takeCards shuffle g.drawStack g).2 with players := updateFirst (takeCards shuffle g.drawStack g).2.players pid (fun p2 : InternalPlayerState => { p2 with hand := p2.hand ++ (takeCards shuffle g.drawStack g).1, hasCalledUno := false, pendingSkipCount := none }), pendingHandSyncs := markHandDirty (takeCards shuffle g.drawStack g).2.pendingHandSyncs pid } with drawStack := 0 }).currentPlayerIndex = g.currentPlayerIndex := by
      show (takeCards shuffle g.drawStack g).2.currentPlayerIndex = g.currentPlayerIndex
      exact index_takeCards shuffle _ g
    have hds : (prepareCurrentPlayerForTurn (moveSteps { { (takeCards shuffle g.drawStack g).2 with players := updateFirst (takeCards shuffle g.drawStack g).2.players pid (fun p2 : InternalPlayerState => { p2 with hand := p2.hand ++ (takeCards shuffle g.drawStack g).1, hasCalledUno := false, pendingSkipCount := none }), pendingHandSyncs := markHandDirty (takeCards shuffle g.drawStack g).2.pendingHandSyncs pid } with drawStack := 0 } 1)).drawStack = 0 := by
      rw [hms2]
      rfl
    have hidx2 : stepIndex ({ { (takeCards shuffle g.drawStack g).2 with players := updateFirst (takeCards shuffle g.drawStack g).2.players pid (fun p2 : InternalPlayerState => { p2 with hand := p2.hand ++ (takeCards shuffle g.drawStack g).1, hasCalledUno := false, pendingSkipCount := none }), pendingHandSyncs := markHandDirty (takeCards shuffle g.drawStack g).2.pendingHandSyncs pid } with drawStack := 0 }).players.length ({ { (takeCards shuffle g.drawStack g).2 with players := updateFirst (takeCards shuffle g.drawStack g).2.players pid (fun p2 : InternalPlayerState => { p2 with hand := p2.hand ++ (takeCards shuffle g.drawStack g).1, hasCalledUno := false, pendingSkipCount := none }), pendingHandSyncs := markHandDirty (takeCards shuffle g.drawStack g).2.pendingHandSyncs pid } with drawStack := 0 }).direction
        ({ { (takeCards shuffle g.drawStack g).2 with players := updateFirst (takeCards shuffle g.drawStack g).2.players pid (fun p2 : InternalPlayerState => { p2 with hand := p2.hand ++ (takeCards shuffle g.drawStack g).1, hasCalledUno := false, pendingSkipCount := none }), pendingHandSyncs := markHandDirty (takeCards shuffle g.drawStack g).2.pendingHandSyncs pid } with drawStack := 0 }).currentPlayerIndex 1 =
        stepIndex g.players.length g.direction g.currentPlayerIndex 1 := by
      rw [hlenG2, hdirG2, hidxG2]
    have hidxc : (prepareCurrentPlayerForTurn (moveSteps { { (takeCards shuffle g.drawStack g).2 with players := updateFirst (takeCards shuffle g.drawStack g).2.players pid (fun p2 : InternalPlayerState => { p2 with hand := p2.hand ++ (takeCards shuffle g.drawStack g).1, hasCalledUno := false, pendingSkipCount := none }), pendingHandSyncs := markHandDirty (takeCards shuffle g.drawStack g).2.pendingHandSyncs pid } with drawStack := 0 } 1)).currentPlayerIndex =
        stepIndex g.players.length g.direction g.currentPlayerIndex 1 := by
      rw [hms2]
      exact hidx2
    have hdir : (prepareCurrentPlayerForTurn (moveSteps { { (takeCards shuffle g.drawStack g).2 with players := updateFirst (takeCards shuffle g.drawStack g).2.players pid (fun p2 : InternalPlayerState => { p2 with hand := p2.hand ++ (takeCards shuffle g.drawStack g).1, hasCalledUno := false, pendingSkipCount := none }), pendingHandSyncs := markHandDirty (takeCards shuffle g.drawStack g).2.pendingHandSyncs pid } with drawStack := 0 } 1)).direction = g.direction := by
      rw [hms2]
      exact hdirG2
    have hfind1 : (updateFirst (takeCards shuffle g.drawStack g).2.players pid (fun p2 : InternalPlayerState => { p2 with hand := p2.hand ++ (takeCards shuffle g.drawStack g).1, hasCalledUno := false, pendingSkipCount := none })).find? (fun p2 => p2.id = pid) =
        some ((fun p2 : InternalPlayerState => { p2 with hand := p2.hand ++ (takeCards shuffle g.drawStack g).1, hasCalledUno := false, pendingSkipCount := none }) player) := by
      refine find?_updateFirst_self (takeCards shuffle g.drawStack g).2.players pid (fun p2 : InternalPlayerState => { p2 with hand := p2.hand ++ (takeCards shuffle g.drawStack g).1, hasCalledUno := false, pendingSkipCount := none }) player ?_ ?_
      · rw [players_takeCards]
        exact hp
      · intro p2
        rfl
    have hhand : ((fun p2 : InternalPlayerState => { p2 with hand := p2.hand ++ (takeCards shuffle g.drawStack g).1, hasCalledUno := false, pendingSkipCount := none }) player).hand.length =
        player.hand.length +
          min g.drawStack (g.deck.length + (g.discardPile.length - 1)) := by
      show (player.hand ++ (takeCards shuffle g.drawStack g).1).length = _
      rw [List.length_append, takeCards_count shuffle hsh]
    obtain ⟨newIdx, hmsA⟩ := moveSteps_eq { { (takeCards shuffle g.drawStack g).2 with players := updateFirst (takeCards shuffle g.drawStack g).2.players pid (fun p2 : InternalPlayerState => { p2 with hand := p2.hand ++ (takeCards shuffle g.drawStack g).1, hasCalledUno := false, pendingSkipCount := none }), pendingHandSyncs := markHandDirty (takeCards shuffle g.drawStack g).2.pendingHandSyncs pid } with drawStack := 0 } 1
    rcases find?_modifyIdx_cases (updateFirst (takeCards shuffle g.drawStack g).2.players pid (fun p2 : InternalPlayerState => { p2 with hand := p2.hand ++ (takeCards shuffle g.drawStack g).1, hasCalledUno := false, pendingSkipCount := none })) newIdx
        (fun p2 : InternalPlayerState =>
          { p2 with hasCalledUno := false, hasPlayedPowerCardThisTurn := false })
        pid (fun p2 => rfl) with hc | ⟨q0, hq0, hc⟩
    · refine ⟨prepareCurrentPlayerForTurn (moveSteps { { (takeCards shuffle g.drawStack g).2 with players := updateFirst (takeCards shuffle g.drawStack g).2.players pid (fun p2 : InternalPlayerState => { p2 with hand := p2.hand ++ (takeCards shuffle g.drawStack g).1, hasCalledUno := false, pendingSkipCount := none }), pendingHandSyncs := markHandDirty (takeCards shuffle g.drawStack g).2.pendingHandSyncs pid } with drawStack := 0 } 1), (fun p2 : InternalPlayerState => { p2 with hand := p2.hand ++ (takeCards shuffle g.drawStack g).1, hasCalledUno := false, pendingSkipCount := none }) player, hadv, ?_,
        hhand, rfl, rfl, hds, hidxc, hdir⟩
      rw [hmsA]
      exact hc.trans hfind1
    · have hq0e : q0 = (fun p2 : InternalPlayerState => { p2 with hand := p2.hand ++ (takeCards shuffle g.drawStack g).1, hasCalledUno := false, pendingSkipCount := none }) player := Option.some.inj (hq0.symm.trans hfind1)
      subst hq0e
      refine ⟨prepareCurrentPlayerForTurn (moveSteps { { (takeCards shuffle g.drawStack g).2 with players := updateFirst (takeCards shuffle g.drawStack g).2.players pid (fun p2 : InternalPlayerState => { p2 with hand := p2.hand ++ (takeCards shuffle g.drawStack g).1, hasCalledUno := false, pendingSkipCount := none }), pendingHandSyncs := markHandDirty (takeCards shuffle g.drawStack g).2.pendingHandSyncs pid } with drawStack := 0 } 1),
        (fun p2 : InternalPlayerState =>
          { p2 with hasCalledUno := false, hasPlayedPowerCardThisTurn := false })
          ((fun p2 : InternalPlayerState => { p2 with hand := p2.hand ++ (takeCards shuffle g.drawStack g).1, hasCalledUno := false, pendingSkipCount := none }) player), hadv, ?_, hhand, rfl, rfl, hds, hidxc, hdir⟩
      rw [hmsA]
      exact hc
  · rw [if_neg hpen]
    have hdraw : draw shuffle g pid = advanceTurn shuffle { (takeCards shuffle DEFAULT_DRAW_COUNT g).2 with players := updateFirst (takeCards shuffle DEFAULT_DRAW_COUNT g).2.players pid (fun p2 : InternalPlayerState => { p2 with hand := p2.hand ++ (takeCards shuffle DEFAULT_DRAW_COUNT g).1, hasCalledUno := false, pendingSkipCount := none }), pendingHandSyncs := markHandDirty (takeCards shuffle DEFAULT_DRAW_COUNT g).2.pendingHandSyncs pid } 1 := by
      unfold draw
      simp only [hT, hp, hA]
      rw [if_neg (show ¬(false = true) by simp)]
      simp only [if_neg hpen]
    have hnfG1 : noFrozen { (takeCards shuffle DEFAULT_DRAW_COUNT g).2 with players := updateFirst (takeCards shuffle DEFAULT_DRAW_COUNT g).2.players pid (fun p2 : InternalPlayerState => { p2 with hand := p2.hand ++ (takeCards shuffle DEFAULT_DRAW_COUNT g).1, hasCalledUno := false, pendingSkipCount := none }), pendingHandSyncs := markHandDirty (takeCards shuffle DEFAULT_DRAW_COUNT g).2.pendingHandSyncs pid } := by
      intro q hq
      rcases mem_updateFirst (takeCards shuffle DEFAULT_DRAW_COUNT g).2.players pid (fun p2 : InternalPlayerState => { p2 with hand := p2.hand ++ (takeCards shuffle DEFAULT_DRAW_COUNT g).1, hasCalledUno := false, pendingSkipCount := none }) q hq with h1 | ⟨p2, hpm, rfl⟩
      · rw [players_takeCards] at h1
        exact hnf q h1
      · rw [players_takeCards] at hpm
        exact hnf p2 hpm
    have hnfG2 : noFrozen { (takeCards shuffle DEFAULT_DRAW_COUNT g).2 with players := updateFirst (takeCards shuffle DEFAULT_DRAW_COUNT g).2.players pid (fun p2 : InternalPlayerState => { p2 with hand := p2.hand ++ (takeCards shuffle DEFAULT_DRAW_COUNT g).1, hasCalledUno := false, pendingSkipCount := none }), pendingHandSyncs := markHandDirty (takeCards shuffle DEFAULT_DRAW_COUNT g).2.pendingHandSyncs pid } := fun q hq => hnfG1 q hq
    have hadv : draw shuffle g pid =
        Except.ok (prepareCurrentPlayerForTurn (moveSteps { (takeCards shuffle DEFAULT_DRAW_COUNT g).2 with players := updateFirst (takeCards shuffle DEFAULT_DRAW_COUNT g).2.players pid (fun p2 : InternalPlayerState => { p2 with hand := p2.hand ++ (takeCards shuffle DEFAULT_DRAW_COUNT g).1, hasCalledUno := false, pendingSkipCount := none }), pendingHandSyncs := markHandDirty (takeCards shuffle DEFAULT_DRAW_COUNT g).2.pendingHandSyncs pid } 1)) :=
      hdraw.trans (advanceTurn_noFrozen shuffle { (takeCards shuffle DEFAULT_DRAW_COUNT g).2 with players := updateFirst (takeCards shuffle DEFAULT_DRAW_COUNT g).2.players pid (fun p2 : InternalPlayerState => { p2 with hand := p2.hand ++ (takeCards shuffle DEFAULT_DRAW_COUNT g).1, hasCalledUno := false, pendingSkipCount := none }), pendingHandSyncs := markHandDirty (takeCards shuffle DEFAULT_DRAW_COUNT g).2.pendingHandSyncs pid } 1 hnfG2)
    have hlenG2 : ({ (takeCards shuffle DEFAULT_DRAW_COUNT g).2 with players := updateFirst (takeCards shuffle DEFAULT_DRAW_COUNT g).2.players pid (fun p2 : InternalPlayerState => { p2 with hand := p2.hand ++ (takeCards shuffle DEFAULT_DRAW_COUNT g).1, hasCalledUno := false, pendingSkipCount := none }), pendingHandSyncs := markHandDirty (takeCards shuffle DEFAULT_DRAW_COUNT g).2.pendingHandSyncs pid }).players.length = g.players.length := by
      show (updateFirst (takeCards shuffle DEFAULT_DRAW_COUNT g).2.players pid (fun p2 : InternalPlayerState => { p2 with hand := p2.hand ++ (takeCards shuffle DEFAULT_DRAW_COUNT g).1, hasCalledUno := false, pendingSkipCount := none })).length = g.players.length
      rw [updateFirst_length, players_takeCards]
    have hlen2ne : ¬(({ (takeCards shuffle DEFAULT_DRAW_COUNT g).2 with players := updateFirst (takeCards shuffle DEFAULT_DRAW_COUNT g).2.players pid (fun p2 : InternalPlayerState => { p2 with hand := p2.hand ++ (takeCards shuffle DEFAULT_DRAW_COUNT g).1, hasCalledUno := false, pendingSkipCount := none }), pendingHandSyncs := markHandDirty (takeCards shuffle DEFAULT_DRAW_COUNT g).2.pendingHandSyncs pid }).players.length = 0) := by
      rw [hlenG2]
      exact hlen0
    have hms2 : moveSteps { (takeCards shuffle DEFAULT_DRAW_COUNT g).2 with players := updateFirst (takeCards shuffle DEFAULT_DRAW_COUNT g).2.players pid (fun p2 : InternalPlayerState => { p2 with hand := p2.hand ++ (takeCards shuffle DEFAULT_DRAW_COUNT g).1, hasCalledUno := false, pendingSkipCount := none }), pendingHandSyncs := markHandDirty (takeCards shuffle DEFAULT_DRAW_COUNT g).2.pendingHandSyncs pid } 1 =
        { { (takeCards shuffle DEFAULT_DRAW_COUNT g).2 with players := updateFirst (takeCards shuffle DEFAULT_DRAW_COUNT g).2.players pid (fun p2 : InternalPlayerState => { p2 with hand := p2.hand ++ (takeCards shuffle DEFAULT_DRAW_COUNT g).1, hasCalledUno := false, pendingSkipCount := none }), pendingHandSyncs := markHandDirty (takeCards shuffle DEFAULT_DRAW_COUNT g).2.pendingHandSyncs pid } with
          currentPlayerIndex :=
            stepIndex ({ (takeCards shuffle DEFAULT_DRAW_COUNT g).2 with players := updateFirst (takeCards shuffle DEFAULT_DRAW_COUNT g).2.players pid (fun p2 : InternalPlayerState => { p2 with hand := p2.hand ++ (takeCards shuffle DEFAULT_DRAW_COUNT g).1, hasCalledUno := false, pendingSkipCount := none }), pendingHandSyncs := markHandDirty (takeCards shuffle DEFAULT_DRAW_COUNT g).2.pendingHandSyncs pid }).players.length ({ (takeCards shuffle DEFAULT_DRAW_COUNT g).2 with players := updateFirst (takeCards shuffle DEFAULT_DRAW_COUNT g).2.players pid (fun p2 : InternalPlayerState => { p2 with hand := p2.hand ++ (takeCards shuffle DEFAULT_DRAW_COUNT g).1, hasCalledUno := false, pendingSkipCount := none }), pendingHandSyncs := markHandDirty (takeCards shuffle DEFAULT_DRAW_COUNT g).2.pendingHandSyncs pid }).direction
              ({ (takeCards shuffle DEFAULT_DRAW_COUNT g).2 with players := updateFirst (takeCards shuffle DEFAULT_DRAW_COUNT g).2.players pid (fun p2 : InternalPlayerState => { p2 with hand := p2.hand ++ (takeCards shuffle DEFAULT_DRAW_COUNT g).1, hasCalledUno := false, pendingSkipCount := none }), pendingHandSyncs := markHandDirty (takeCards shuffle DEFAULT_DRAW_COUNT g).2.pendingHandSyncs pid }).currentPlayerIndex 1 } := by
      unfold moveSteps
      rw [if_neg hlen2ne]
    have hdirG2 : ({ (takeCards shuffle DEFAULT_DRAW_COUNT g).2 with players := updateFirst (takeCards shuffle DEFAULT_DRAW_COUNT g).2.players pid (fun p2 : InternalPlayerState => { p2 with hand := p2.hand ++ (takeCards shuffle DEFAULT_DRAW_COUNT g).1, hasCalledUno := false, pendingSkipCount := none }), pendingHandSyncs := markHandDirty (takeCards shuffle DEFAULT_DRAW_COUNT g).2.pendingHandSyncs pid }).direction = g.direction := by
      show (takeCards shuffle DEFAULT_DRAW_COUNT g).2.direction = g.direction
      exact direction_takeCards shuffle _ g
    have hidxG2 : ({ (takeCards shuffle DEFAULT_DRAW_COUNT g).2 with players := updateFirst (takeCards shuffle DEFAULT_DRAW_COUNT g).2.players pid (fun p2 : InternalPlayerState => { p2 with hand := p2.hand ++ (takeCards shuffle DEFAULT_DRAW_COUNT g).1, hasCalledUno := false, pendingSkipCount := none }), pendingHandSyncs := markHandDirty (takeCards shuffle DEFAULT_DRAW_COUNT g).2.pendingHandSyncs pid }).currentPlayerIndex = g.currentPlayerIndex := by
      show (takeCards shuffle DEFAULT_DRAW_COUNT g).2.currentPlayerIndex = g.currentPlayerIndex
      exact index_takeCards shuffle _ g
    have hds : (prepareCurrentPlayerForTurn (moveSteps { (takeCards shuffle DEFAULT_DRAW_COUNT g).2 with players := updateFirst (takeCards shuffle DEFAULT_DRAW_COUNT g).2.players pid (fun p2 : InternalPlayerState => { p2 with hand := p2.hand ++ (takeCards shuffle DEFAULT_DRAW_COUNT g).1, hasCalledUno := false, pendingSkipCount := none }), pendingHandSyncs := markHandDirty (takeCards shuffle DEFAULT_DRAW_COUNT g).2.pendingHandSyncs pid } 1)).drawStack = 0 := by
      rw [hms2]
      show (takeCards shuffle DEFAULT_DRAW_COUNT g).2.drawStack = 0
      rw [drawStack_takeCards]
      omega
    have hidx2 : stepIndex ({ (takeCards shuffle DEFAULT_DRAW_COUNT g).2 with players := updateFirst (takeCards shuffle DEFAULT_DRAW_COUNT g).2.players pid (fun p2 : InternalPlayerState => { p2 with hand := p2.hand ++ (takeCards shuffle DEFAULT_DRAW_COUNT g).1, hasCalledUno := false, pendingSkipCount := none }), pendingHandSyncs := markHandDirty (takeCards shuffle DEFAULT_DRAW_COUNT g).2.pendingHandSyncs pid }).players.length ({ (takeCards shuffle DEFAULT_DRAW_COUNT g).2 with players := updateFirst (takeCards shuffle DEFAULT_DRAW_COUNT g).2.players pid (fun p2 : InternalPlayerState => { p2 with hand := p2.hand ++ (takeCards shuffle DEFAULT_DRAW_COUNT g).1, hasCalledUno := false, pendingSkipCount := none }), pendingHandSyncs := markHandDirty (takeCards shuffle DEFAULT_DRAW_COUNT g).2.pendingHandSyncs pid }).direction
        ({ (takeCards shuffle DEFAULT_DRAW_COUNT g).2 with players := updateFirst (takeCards shuffle DEFAULT_DRAW_COUNT g).2.players pid (fun p2 : InternalPlayerState => { p2 with hand := p2.hand ++ (takeCards shuffle DEFAULT_DRAW_COUNT g).1, hasCalledUno := false, pendingSkipCount := none }), pendingHandSyncs := markHandDirty (takeCards shuffle DEFAULT_DRAW_COUNT g).2.pendingHandSyncs pid }).currentPlayerIndex 1 =
        stepIndex g.players.length g.direction g.currentPlayerIndex 1 := by
      rw [hlenG2, hdirG2, hidxG2]
    have hidxc : (prepareCurrentPlayerForTurn (moveSteps { (takeCards shuffle DEFAULT_DRAW_COUNT g).2 with players := updateFirst (takeCards shuffle DEFAULT_DRAW_COUNT g).2.players pid (fun p2 : InternalPlayerState => { p2 with hand := p2.hand ++ (takeCards shuffle DEFAULT_DRAW_COUNT g).1, hasCalledUno := false, pendingSkipCount := none }), pendingHandSyncs := markHandDirty (takeCards shuffle DEFAULT_DRAW_COUNT g).2.pendingHandSyncs pid } 1)).currentPlayerIndex =
        stepIndex g.players.length g.direction g.currentPlayerIndex 1 := by
      rw [hms2]
      exact hidx2
    have hdir : (prepareCurrentPlayerForTurn (moveSteps { (takeCards shuffle DEFAULT_DRAW_COUNT g).2 with players := updateFirst (takeCards shuffle DEFAULT_DRAW_COUNT g).2.players pid (fun p2 : InternalPlayerState => { p2 with hand := p2.hand ++ (takeCards shuffle DEFAULT_DRAW_COUNT g).1, hasCalledUno := false, pendingSkipCount := none }), pendingHandSyncs := markHandDirty (takeCards shuffle DEFAULT_DRAW_COUNT g).2.pendingHandSyncs pid } 1)).direction = g.direction := by
      rw [hms2]
      exact hdirG2
    have hfind1 : (updateFirst (takeCards shuffle DEFAULT_DRAW_COUNT g).2.players pid (fun p2 : InternalPlayerState => { p2 with hand := p2.hand ++ (takeCards shuffle DEFAULT_DRAW_COUNT g).1, hasCalledUno := false, pendingSkipCount := none })).find? (fun p2 => p2.id = pid) =
        some ((fun p2 : InternalPlayerState => { p2 with hand := p2.hand ++ (takeCards shuffle DEFAULT_DRAW_COUNT g).1, hasCalledUno := false, pendingSkipCount := none }) player) := by
      refine find?_updateFirst_self (takeCards shuffle DEFAULT_DRAW_COUNT g).2.players pid (fun p2 : InternalPlayerState => { p2 with hand := p2.hand ++ (takeCards shuffle DEFAULT_DRAW_COUNT g).1, hasCalledUno := false, pendingSkipCount := none }) player ?_ ?_
      · rw [players_takeCards]
        exact hp
      · intro p2
        rfl
    have hhand : ((fun p2 : InternalPlayerState => { p2 with hand := p2.hand ++ (takeCards shuffle DEFAULT_DRAW_COUNT g).1, hasCalledUno := false, pendingSkipCount := none }) player).hand.length =
        player.hand.length +
          min 1 (g.deck.length + (g.discardPile.length - 1)) := by
      show (player.hand ++ (takeCards shuffle DEFAULT_DRAW_COUNT g).1).length = _
      rw [List.length_append, takeCards_count shuffle hsh]
      rfl
    obtain ⟨newIdx, hmsA⟩ := moveSteps_eq { (takeCards shuffle DEFAULT_DRAW_COUNT g).2 with players := updateFirst (takeCards shuffle DEFAULT_DRAW_COUNT g).2.players pid (fun p2 : InternalPlayerState => { p2 with hand := p2.hand ++ (takeCards shuffle DEFAULT_DRAW_COUNT g).1, hasCalledUno := false, pendingSkipCount := none }), pendingHandSyncs := markHandDirty (takeCards shuffle DEFAULT_DRAW_COUNT g).2.pendingHandSyncs pid } 1
    rcases find?_modifyIdx_cases (updateFirst (takeCards shuffle DEFAULT_DRAW_COUNT g).2.players pid (fun p2 : InternalPlayerState => { p2 with hand := p2.hand ++ (takeCards shuffle DEFAULT_DRAW_COUNT g).1, hasCalledUno := false, pendingSkipCount := none })) newIdx
        (fun p2 : InternalPlayerState =>
          { p2 with hasCalledUno := false, hasPlayedPowerCardThisTurn := false })
        pid (fun p2 => rfl) with hc | ⟨q0, hq0, hc⟩
    · refine ⟨prepareCurrentPlayerForTurn (moveSteps { (takeCards shuffle DEFAULT_DRAW_COUNT g).2 with players := updateFirst (takeCards shuffle DEFAULT_DRAW_COUNT g).2.players pid (fun p2 : InternalPlayerState => { p2 with hand := p2.hand ++ (takeCards shuffle DEFAULT_DRAW_COUNT g).1, hasCalledUno := false, pendingSkipCount := none }), pendingHandSyncs := markHandDirty (takeCards shuffle DEFAULT_DRAW_COUNT g).2.pendingHandSyncs pid } 1), (fun p2 : InternalPlayerState => { p2 with hand := p2.hand ++ (takeCards shuffle DEFAULT_DRAW_COUNT g).1, hasCalledUno := false, pendingSkipCount := none }) player, hadv, ?_,
        hhand, rfl, rfl, hds, hidxc, hdir⟩
      rw [hmsA]
      exact hc.trans hfind1
    · have hq0e : q0 = (fun p2 : InternalPlayerState => { p2 with hand := p2.hand ++ (takeCards shuffle DEFAULT_DRAW_COUNT g).1, hasCalledUno := false, pendingSkipCount := none }) player := Option.some.inj (hq0.symm.trans hfind1)
      subst hq0e
      refine ⟨prepareCurrentPlayerForTurn (moveSteps { (takeCards shuffle DEFAULT_DRAW_COUNT g).2 with players := updateFirst (takeCards shuffle DEFAULT_DRAW_COUNT g).2.players pid (fun p2 : InternalPlayerState => { p2 with hand := p2.hand ++ (takeCards shuffle DEFAULT_DRAW_COUNT g).1, hasCalledUno := false, pendingSkipCount := none }), pendingHandSyncs := markHandDirty (takeCards shuffle DEFAULT_DRAW_COUNT g).2.pendingHandSyncs pid } 1),
        (fun p2 : InternalPlayerState =>
          { p2 with hasCalledUno := false, hasPlayedPowerCardThisTurn := false })
          ((fun p2 : InternalPlayerState => { p2 with hand := p2.hand ++ (takeCards shuffle DEFAULT_DRAW_COUNT g).1, hasCalledUno := false, pendingSkipCount := none }) player), hadv, ?_, hhand, rfl, rfl, hds, hidxc, hdir⟩
      rw [hmsA]
      exact hc

/-- Witness for C9: the exhausted-piles draw in exG9 (zero cards dealt,
turn advanced). -/
theorem C9_draw_witness :
    ∃ g1 q, draw id exG9 "A" = Except.ok g1 ∧
      getPlayer? g1 "A" = some q ∧
      q.hand.length = (mkPlayer "A" [⟨40, CardColor.red, CardValue.num 1⟩]).hand.length +
        min (if exG9.drawStack > 0 then exG9.drawStack else 1)
          (exG9.deck.length + (exG9.discardPile.length - 1)) ∧
      q.hasCalledUno = false ∧
      q.pendingSkipCount = none ∧
      g1.drawStack = 0 ∧
      g1.currentPlayerIndex =
        stepIndex exG9.players.length exG9.direction exG9.currentPlayerIndex 1 ∧
      g1.direction = exG9.direction :=
  C9_draw id exG9 "A" (mkPlayer "A" [⟨40, CardColor.red, CardValue.num 1⟩])
    (fun l => rfl) rfl rfl rfl (by unfold noFrozen; decide)

/-! ## C5: removePlayer -/

/-- C5: removePlayer (modelled from the spec, the method is missing from the
provided sources) removes the player from the turn order (the new players
list is exactly the old one with the found index erased, and — given distinct
player ids — the removed id no longer occurs); when the removed player was
current and the cursor still lies inside the shrunk list the cursor keeps its
numeric value, which now points at the next player in the prior direction
(the entry previously at index idx+1); when exactly one player remains that
player is recorded as the winner in the state and in the returned value; the
deck and the discard pile are untouched, so the removed player's cards return
to neither. -/
theorem C5_removePlayer (g : UnoGame) (pid : String) (idx : Nat)
    (hidx : findIndex (fun p => p.id = pid) g.players = some idx)
    (hnd : (g.players.map fun r => r.id).Nodup) :
    (removePlayer g pid).1.players = g.players.eraseIdx idx ∧
    pid ∉ ((removePlayer g pid).1.players.map fun r => r.id) ∧
    (idx = g.currentPlayerIndex → g.currentPlayerIndex < (g.players.eraseIdx idx).length →
      (removePlayer g pid).1.currentPlayerIndex = g.currentPlayerIndex) ∧
    (g.players.eraseIdx idx).get? idx = g.players.get? (idx + 1) ∧
    (∀ q, g.players.eraseIdx idx = [q] →
      (removePlayer g pid).1.winnerId = some q.id ∧ (removePlayer g pid).2 = some q.id) ∧
    (removePlayer g pid).1.deck = g.deck ∧
    (removePlayer g pid).1.discardPile = g.discardPile := by
  obtain ⟨p, hpget, hpid⟩ := findIndex_found _ g.players idx hidx
  have hpid2 : p.id = pid := of_decide_eq_true hpid
  have hmget : (g.players.map fun r => r.id).get? idx = some p.id := by
    rw [List.get?_map, hpget]
    rfl
  have hnotin : pid ∉ ((g.players.eraseIdx idx).map fun r => r.id) := by
    rw [map_eraseIdx, ← hpid2]
    exact nodup_not_mem_eraseIdx _ idx p.id hnd hmget
  have hnext : (g.players.eraseIdx idx).get? idx = g.players.get? (idx + 1) :=
    eraseIdx_get?_ge g.players idx idx (Nat.le_refl idx)
  rcases hP : g.players.eraseIdx idx with _ | ⟨q1, _ | ⟨q2, rest2⟩⟩
  · rw [hP] at hnotin hnext
    simp only [removePlayer, hidx, hP]
    refine ⟨by trivial, ?_, ?_, hnext, ?_, by trivial, by trivial⟩
    · exact hnotin
    · intro h1 h2
      simp at h2
    · intro q hq
      exact List.noConfusion hq
  · rw [hP] at hnotin hnext
    simp only [removePlayer, hidx, hP]
    refine ⟨by trivial, ?_, ?_, hnext, ?_, by trivial, by trivial⟩
    · exact hnotin
    · intro h1 h2
      rw [if_neg (by omega), if_pos h2]
    · intro q hq
      have hq1 : q1 = q := by
        injection hq
      subst hq1
      exact ⟨rfl, rfl⟩
  · rw [hP] at hnotin hnext
    simp only [removePlayer, hidx, hP]
    refine ⟨by trivial, ?_, ?_, hnext, ?_, by trivial, by trivial⟩
    · exact hnotin
    · intro h1 h2
      rw [if_neg (by omega), if_pos h2]
    · intro q hq
      injection hq with h1 h2
      exact List.noConfusion h2

/-- Witness for C5: removing current player B from the three-player exG5. -/
theorem C5_removePlayer_witness :
    (removePlayer exG5 "B").1.players = exG5.players.eraseIdx 1 ∧
    "B" ∉ ((removePlayer exG5 "B").1.players.map fun r => r.id) ∧
    (1 = exG5.currentPlayerIndex → exG5.currentPlayerIndex < (exG5.players.eraseIdx 1).length →
      (removePlayer exG5 "B").1.currentPlayerIndex = exG5.currentPlayerIndex) ∧
    (exG5.players.eraseIdx 1).get? 1 = exG5.players.get? 2 ∧
    (∀ q, exG5.players.eraseIdx 1 = [q] →
      (removePlayer exG5 "B").1.winnerId = some q.id ∧
      (removePlayer exG5 "B").2 = some q.id) ∧
    (removePlayer exG5 "B").1.deck = exG5.deck ∧
    (removePlayer exG5 "B").1.discardPile = exG5.discardPile :=
  C5_removePlayer exG5 "B" 1 rfl (by decide)

/-! ## C8: drawPowerCard -/

/-- C8: when it is the player's turn and at least one power draw is owed
(floor(powerPoints / 4) ≥ 1), drawPowerCard succeeds (the power deck is
replenished before the pop, and the supplied power-deck shuffle preserves
length, so the pop cannot fail): exactly one power card is appended to the
player's inventory and powerPoints drop by exactly the cost 4 (Nat
subtraction models the floor at 0); if the recomputed requirement is still
at least 1 the player remains awaiting with pendingPowerDrawPlayerId set
and the cursor unmoved, otherwise both flags are cleared,
pendingPowerDrawPlayerId is cleared, and (with nobody frozen) the turn
advances by the deferred pendingSkipCount (none → 1). -/
theorem C8_drawPowerCard (shuffle : List Card → List Card)
    (shufflePower : List PowerCard → List PowerCard) (g : UnoGame) (pid : String)
    (player : InternalPlayerState)
    (hshp : ∀ l, (shufflePower l).length = l.length)
    (hT : ensureTurn g pid = Except.ok ())
    (hp : getPlayer? g pid = some player)
    (hreq : 1 ≤ getRequiredPowerDraws player)
    (hnf : noFrozen g) :
    ∃ g1 card q, drawPowerCard shuffle shufflePower g pid = Except.ok (g1, card) ∧
      getPlayer? g1 pid = some q ∧
      q.powerCards = player.powerCards ++ [card] ∧
      q.powerPoints = player.powerPoints - powerCardCost ∧
      (if 0 < getRequiredPowerDraws
          { player with powerPoints := player.powerPoints - powerCardCost } then
        q.isAwaitingPowerDraw = true ∧
        g1.pendingPowerDrawPlayerId = some pid ∧
        g1.currentPlayerIndex = g.currentPlayerIndex
      else
        q.isAwaitingPowerDraw = false ∧
        q.pendingSkipCount = none ∧
        g1.pendingPowerDrawPlayerId = none ∧
        g1.currentPlayerIndex =
          stepIndex g.players.length g.direction g.currentPlayerIndex
            (player.pendingSkipCount.getD 1)) := by
  have hlen0 : ¬(g.players.length = 0) := by
    cases hps : g.players with
    | nil =>
      unfold getPlayer? at hp
      rw [hps] at hp
      exact Option.noConfusion hp
    | cons a as => simp [hps]
  obtain ⟨pd, hE⟩ := ensurePowerDeckSize_eq shufflePower g
  have hbp : (buildPowerDeck shufflePower).length = 16 := by
    unfold buildPowerDeck
    rw [hshp]
    rfl
  have hne : (ensurePowerDeckSize shufflePower g).powerDeck ≠ [] := by
    unfold ensurePowerDeckSize
    split
    · show buildPowerDeck shufflePower ≠ []
      intro h0
      rw [h0] at hbp
      exact absurd hbp (by decide)
    · rename_i hne2
      show g.powerDeck ≠ []
      simp [List.isEmpty_iff] at hne2
      exact hne2
  rcases hPD : (ensurePowerDeckSize shufflePower g).powerDeck with _ | ⟨card, restDeck⟩
  · exact absurd hPD hne
  · have hfindE : (ensurePowerDeckSize shufflePower g).players.find? (fun p2 => p2.id = pid) = some player := by
      rw [hE]
      exact hp
    have hfind2 : (updateFirst (ensurePowerDeckSize shufflePower g).players pid (fun p2 : InternalPlayerState => { p2 with powerCards := p2.powerCards ++ [card], powerPoints := p2.powerPoints - powerCardCost })).find? (fun p2 => p2.id = pid) =
        some ((fun p2 : InternalPlayerState => { p2 with powerCards := p2.powerCards ++ [card], powerPoints := p2.powerPoints - powerCardCost }) player) :=
      find?_updateFirst_self (ensurePowerDeckSize shufflePower g).players pid (fun p2 : InternalPlayerState => { p2 with powerCards := p2.powerCards ++ [card], powerPoints := p2.powerPoints - powerCardCost }) player hfindE (fun p2 => rfl)
    have hfind2' : getPlayer? (dpcG2 (ensurePowerDeckSize shufflePower g) pid card restDeck) pid = some ((fun p2 : InternalPlayerState => { p2 with powerCards := p2.powerCards ++ [card], powerPoints := p2.powerPoints - powerCardCost }) player) := hfind2
    have hrun : drawPowerCard shuffle shufflePower g pid =
        (if getRequiredPowerDraws { player with powerCards := player.powerCards ++ [card], powerPoints := player.powerPoints - powerCardCost } > 0 then
          Except.ok
            ({ (dpcG2 (ensurePowerDeckSize shufflePower g) pid card restDeck) with
                players := updateFirst (dpcG2 (ensurePowerDeckSize shufflePower g) pid card restDeck).players pid (fun p2 : InternalPlayerState => { p2 with isAwaitingPowerDraw := true }),
                pendingPowerDrawPlayerId := some pid },
              card)
        else
          match advanceTurn shuffle (dpcG3 (dpcG2 (ensurePowerDeckSize shufflePower g) pid card restDeck) pid) (player.pendingSkipCount.getD 1) with
          | Except.error e => Except.error e
          | Except.ok g4 => Except.ok (g4, card)) := by
      unfold drawPowerCard
      simp only [hT, hp, hPD, hfind2']
      rw [if_neg (show ¬(getRequiredPowerDraws player = 0) by omega)]
    by_cases hre : 0 < getRequiredPowerDraws
        { player with powerPoints := player.powerPoints - powerCardCost }
    · have hre2 : getRequiredPowerDraws { player with powerCards := player.powerCards ++ [card], powerPoints := player.powerPoints - powerCardCost } > 0 := hre
      rw [if_pos hre2] at hrun
      have hfind3 : (updateFirst (updateFirst (ensurePowerDeckSize shufflePower g).players pid (fun p2 : InternalPlayerState => { p2 with powerCards := p2.powerCards ++ [card], powerPoints := p2.powerPoints - powerCardCost })) pid (fun p2 : InternalPlayerState => { p2 with isAwaitingPowerDraw := true })).find?
          (fun p2 => p2.id = pid) = some ((fun p2 : InternalPlayerState => { p2 with isAwaitingPowerDraw := true }) ((fun p2 : InternalPlayerState => { p2 with powerCards := p2.powerCards ++ [card], powerPoints := p2.powerPoints - powerCardCost }) player)) :=
        find?_updateFirst_self (updateFirst (ensurePowerDeckSize shufflePower g).players pid (fun p2 : InternalPlayerState => { p2 with powerCards := p2.powerCards ++ [card], powerPoints := p2.powerPoints - powerCardCost })) pid (fun p2 : InternalPlayerState => { p2 with isAwaitingPowerDraw := true })
          ((fun p2 : InternalPlayerState => { p2 with powerCards := p2.powerCards ++ [card], powerPoints := p2.powerPoints - powerCardCost }) player) hfind2 (fun p2 => rfl)
      have hidxE : (ensurePowerDeckSize shufflePower g).currentPlayerIndex = g.currentPlayerIndex := by
        rw [hE]
      have hfind3x : getPlayer? { (dpcG2 (ensurePowerDeckSize shufflePower g) pid card restDeck) with players := updateFirst (dpcG2 (ensurePowerDeckSize shufflePower g) pid card restDeck).players pid (fun p2 : InternalPlayerState => { p2 with isAwaitingPowerDraw := true }), pendingPowerDrawPlayerId := some pid } pid = some ((fun p2 : InternalPlayerState => { p2 with isAwaitingPowerDraw := true }) ((fun p2 : InternalPlayerState => { p2 with powerCards := p2.powerCards ++ [card], powerPoints := p2.powerPoints - powerCardCost }) player)) := hfind3
      refine ⟨{ (dpcG2 (ensurePowerDeckSize shufflePower g) pid card restDeck) with players := updateFirst (dpcG2 (ensurePowerDeckSize shufflePower g) pid card restDeck).players pid (fun p2 : InternalPlayerState => { p2 with isAwaitingPowerDraw := true }), pendingPowerDrawPlayerId := some pid }, card, (fun p2 : InternalPlayerState => { p2 with isAwaitingPowerDraw := true }) ((fun p2 : InternalPlayerState => { p2 with powerCards := p2.powerCards ++ [card], powerPoints := p2.powerPoints - powerCardCost }) player), hrun, hfind3x, rfl, rfl, ?_⟩
      rw [if_pos hre]
      exact ⟨rfl, rfl, hidxE⟩
    · have hre2 : ¬(getRequiredPowerDraws { player with powerCards := player.powerCards ++ [card], powerPoints := player.powerPoints - powerCardCost } > 0) := hre
      rw [if_neg hre2] at hrun
      have hnfD : noFrozen (dpcG3 (dpcG2 (ensurePowerDeckSize shufflePower g) pid card restDeck) pid) := by
        intro q hq
        rcases mem_updateFirst (updateFirst (ensurePowerDeckSize shufflePower g).players pid (fun p2 : InternalPlayerState => { p2 with powerCards := p2.powerCards ++ [card], powerPoints := p2.powerPoints - powerCardCost })) pid (fun p2 : InternalPlayerState => { p2 with isAwaitingPowerDraw := false, pendingSkipCount := none }) q hq with
          h1 | ⟨p2, hpm, rfl⟩
        · rcases mem_updateFirst (ensurePowerDeckSize shufflePower g).players pid (fun p2 : InternalPlayerState => { p2 with powerCards := p2.powerCards ++ [card], powerPoints := p2.powerPoints - powerCardCost }) q h1 with h2 | ⟨p3, hpm3, rfl⟩
          · rw [hE] at h2
            exact hnf q h2
          · rw [hE] at hpm3
            exact hnf p3 hpm3
        · rcases mem_updateFirst (ensurePowerDeckSize shufflePower g).players pid (fun p2 : InternalPlayerState => { p2 with powerCards := p2.powerCards ++ [card], powerPoints := p2.powerPoints - powerCardCost }) p2 hpm with h2 | ⟨p3, hpm3, rfl⟩
          · rw [hE] at h2
            exact hnf p2 h2
          · rw [hE] at hpm3
            exact hnf p3 hpm3
      have hadv := advanceTurn_noFrozen shuffle (dpcG3 (dpcG2 (ensurePowerDeckSize shufflePower g) pid card restDeck) pid) (player.pendingSkipCount.getD 1) hnfD
      rw [hadv] at hrun
      have hfindD3 : (updateFirst (updateFirst (ensurePowerDeckSize shufflePower g).players pid (fun p2 : InternalPlayerState => { p2 with powerCards := p2.powerCards ++ [card], powerPoints := p2.powerPoints - powerCardCost })) pid (fun p2 : InternalPlayerState => { p2 with isAwaitingPowerDraw := false, pendingSkipCount := none })).find?
          (fun p2 => p2.id = pid) = some ((fun p2 : InternalPlayerState => { p2 with isAwaitingPowerDraw := false, pendingSkipCount := none }) ((fun p2 : InternalPlayerState => { p2 with powerCards := p2.powerCards ++ [card], powerPoints := p2.powerPoints - powerCardCost }) player)) :=
        find?_updateFirst_self (updateFirst (ensurePowerDeckSize shufflePower g).players pid (fun p2 : InternalPlayerState => { p2 with powerCards := p2.powerCards ++ [card], powerPoints := p2.powerPoints - powerCardCost })) pid (fun p2 : InternalPlayerState => { p2 with isAwaitingPowerDraw := false, pendingSkipCount := none })
          ((fun p2 : InternalPlayerState => { p2 with powerCards := p2.powerCards ++ [card], powerPoints := p2.powerPoints - powerCardCost }) player) hfind2 (fun p2 => rfl)
      have hlenD3 : (dpcG3 (dpcG2 (ensurePowerDeckSize shufflePower g) pid card restDeck) pid).players.length = g.players.length := by
        show (updateFirst (updateFirst (ensurePowerDeckSize shufflePower g).players pid (fun p2 : InternalPlayerState => { p2 with powerCards := p2.powerCards ++ [card], powerPoints := p2.powerPoints - powerCardCost })) pid (fun p2 : InternalPlayerState => { p2 with isAwaitingPowerDraw := false, pendingSkipCount := none })).length = _
        rw [updateFirst_length, updateFirst_length, hE]
      have hlenne : ¬((dpcG3 (dpcG2 (ensurePowerDeckSize shufflePower g) pid card restDeck) pid).players.length = 0) := by
        rw [hlenD3]
        exact hlen0
      have hms2 : moveSteps (dpcG3 (dpcG2 (ensurePowerDeckSize shufflePower g) pid card restDeck) pid) (player.pendingSkipCount.getD 1) =
          { (dpcG3 (dpcG2 (ensurePowerDeckSize shufflePower g) pid card restDeck) pid) with
            currentPlayerIndex :=
              stepIndex (dpcG3 (dpcG2 (ensurePowerDeckSize shufflePower g) pid card restDeck) pid).players.length (dpcG3 (dpcG2 (ensurePowerDeckSize shufflePower g) pid card restDeck) pid).direction
                (dpcG3 (dpcG2 (ensurePowerDeckSize shufflePower g) pid card restDeck) pid).currentPlayerIndex (player.pendingSkipCount.getD 1) } := by
        unfold moveSteps
        rw [if_neg hlenne]
      have hdirD3 : (dpcG3 (dpcG2 (ensurePowerDeckSize shufflePower g) pid card restDeck) pid).direction = g.direction := by
        show (ensurePowerDeckSize shufflePower g).direction = g.direction
        rw [hE]
      have hidxD3 : (dpcG3 (dpcG2 (ensurePowerDeckSize shufflePower g) pid card restDeck) pid).currentPlayerIndex = g.currentPlayerIndex := by
        show (ensurePowerDeckSize shufflePower g).currentPlayerIndex = g.currentPlayerIndex
        rw [hE]
      have hidx2 : stepIndex (dpcG3 (dpcG2 (ensurePowerDeckSize shufflePower g) pid card restDeck) pid).players.length (dpcG3 (dpcG2 (ensurePowerDeckSize shufflePower g) pid card restDeck) pid).direction
          (dpcG3 (dpcG2 (ensurePowerDeckSize shufflePower g) pid card restDeck) pid).currentPlayerIndex (player.pendingSkipCount.getD 1) =
          stepIndex g.players.length g.direction g.currentPlayerIndex (player.pendingSkipCount.getD 1) := by
        rw [hlenD3, hdirD3, hidxD3]
      have hidxc : (prepareCurrentPlayerForTurn (moveSteps (dpcG3 (dpcG2 (ensurePowerDeckSize shufflePower g) pid card restDeck) pid) (player.pendingSkipCount.getD 1))).currentPlayerIndex =
          stepIndex g.players.length g.direction g.currentPlayerIndex (player.pendingSkipCount.getD 1) := by
        rw [hms2]
        exact hidx2
      have hppdp : (prepareCurrentPlayerForTurn
          (moveSteps (dpcG3 (dpcG2 (ensurePowerDeckSize shufflePower g) pid card restDeck) pid) (player.pendingSkipCount.getD 1))).pendingPowerDrawPlayerId = none := by
        rw [hms2]
        rfl
      obtain ⟨newIdx, hmsA⟩ := moveSteps_eq (dpcG3 (dpcG2 (ensurePowerDeckSize shufflePower g) pid card restDeck) pid) (player.pendingSkipCount.getD 1)
      rcases find?_modifyIdx_cases (updateFirst (updateFirst (ensurePowerDeckSize shufflePower g).players pid (fun p2 : InternalPlayerState => { p2 with powerCards := p2.powerCards ++ [card], powerPoints := p2.powerPoints - powerCardCost })) pid (fun p2 : InternalPlayerState => { p2 with isAwaitingPowerDraw := false, pendingSkipCount := none }))
          newIdx (fun p2 : InternalPlayerState => { p2 with hasCalledUno := false, hasPlayedPowerCardThisTurn := false }) pid (fun p2 => rfl) with hc | ⟨q0, hq0, hc⟩
      · refine ⟨prepareCurrentPlayerForTurn (moveSteps (dpcG3 (dpcG2 (ensurePowerDeckSize shufflePower g) pid card restDeck) pid) (player.pendingSkipCount.getD 1)), card,
          (fun p2 : InternalPlayerState => { p2 with isAwaitingPowerDraw := false, pendingSkipCount := none }) ((fun p2 : InternalPlayerState => { p2 with powerCards := p2.powerCards ++ [card], powerPoints := p2.powerPoints - powerCardCost }) player), hrun, ?_, rfl, rfl, ?_⟩
        · rw [hmsA]
          exact hc.trans hfindD3
        · rw [if_neg hre]
          exact ⟨rfl, rfl, hppdp, hidxc⟩
      · have hq0e : q0 = (fun p2 : InternalPlayerState => { p2 with isAwaitingPowerDraw := false, pendingSkipCount := none }) ((fun p2 : InternalPlayerState => { p2 with powerCards := p2.powerCards ++ [card], powerPoints := p2.powerPoints - powerCardCost }) player) := Option.some.inj (hq0.symm.trans hfindD3)
        subst hq0e
        refine ⟨prepareCurrentPlayerForTurn (moveSteps (dpcG3 (dpcG2 (ensurePowerDeckSize shufflePower g) pid card restDeck) pid) (player.pendingSkipCount.getD 1)), card,
          (fun p2 : InternalPlayerState => { p2 with hasCalledUno := false, hasPlayedPowerCardThisTurn := false }) ((fun p2 : InternalPlayerState => { p2 with isAwaitingPowerDraw := false, pendingSkipCount := none }) ((fun p2 : InternalPlayerState => { p2 with powerCards := p2.powerCards ++ [card], powerPoints := p2.powerPoints - powerCardCost }) player)), hrun, ?_, rfl, rfl, ?_⟩
        · rw [hmsA]
          exact hc
        · rw [if_neg hre]
          exact ⟨rfl, rfl, hppdp, hidxc⟩

/-- Witness for C8: in exG8 player A (5 power points, one owed draw) draws
the lone freeze power card; the requirement drops to zero, the flags clear,
and the turn advances one step. -/
theorem C8_drawPowerCard_witness :
    ∃ g1 card q, drawPowerCard id id exG8 "A" = Except.ok (g1, card) ∧
      getPlayer? g1 "A" = some q ∧
      q.powerCards =
        ({ mkPlayer "A" [⟨36, CardColor.red, CardValue.num 3⟩] with
          powerPoints := 5 } : InternalPlayerState).powerCards ++ [card] ∧
      q.powerPoints =
        ({ mkPlayer "A" [⟨36, CardColor.red, CardValue.num 3⟩] with
          powerPoints := 5 } : InternalPlayerState).powerPoints - powerCardCost ∧
      (if 0 < getRequiredPowerDraws
          { ({ mkPlayer "A" [⟨36, CardColor.red, CardValue.num 3⟩] with
            powerPoints := 5 } : InternalPlayerState) with
            powerPoints :=
              ({ mkPlayer "A" [⟨36, CardColor.red, CardValue.num 3⟩] with
                powerPoints := 5 } : InternalPlayerState).powerPoints - powerCardCost } then
        q.isAwaitingPowerDraw = true ∧
        g1.pendingPowerDrawPlayerId = some "A" ∧
        g1.currentPlayerIndex = exG8.currentPlayerIndex
      else
        q.isAwaitingPowerDraw = false ∧
        q.pendingSkipCount = none ∧
        g1.pendingPowerDrawPlayerId = none ∧
        g1.currentPlayerIndex =
          stepIndex exG8.players.length exG8.direction exG8.currentPlayerIndex
            (({ mkPlayer "A" [⟨36, CardColor.red, CardValue.num 3⟩] with
              powerPoints := 5 } : InternalPlayerState).pendingSkipCount.getD 1)) :=
  C8_drawPowerCard id id exG8 "A"
    { mkPlayer "A" [⟨36, CardColor.red, CardValue.num 3⟩] with powerPoints := 5 }
    (fun l => rfl) rfl rfl (by decide) (by unfold noFrozen; decide)

end CardRush
